import Mathlib

/-!
Verification of the GoNetWatch traffic-analytics core against its
natural-language specification.

The Go source is shallowly embedded: every Go function relevant to a claim
is translated into a pure Lean function over explicit state.  Conventions:

* Go `int` / `int64` values (byte totals, packet counters) are modelled as
  `Int` with two's-complement wrap-around applied at every addition
  (`i64add`), exactly as the 64-bit machine arithmetic behaves.
* `time.Time` / `time.Duration` values are modelled as `Int` nanoseconds
  (`time.Second = 10^9`).  Functions that call `time.Now()` in Go take the
  current instant as an explicit `now : Int` argument.
* Go maps keyed by strings are modelled as association lists with unique
  keys; a map read of a missing key yields Go's zero value.
* Float64 rates returned by `GetRates` are modelled as exact rationals;
  for the properties proved here (zero numerators, zero-duration guard)
  the float and rational computations coincide.
-/

namespace GoNetWatch

/-- Two's-complement wrap of an integer into the signed 64-bit range,
modelling Go's `int`/`int64` overflow behaviour. -/
def wrap64 (n : Int) : Int := (n + 2 ^ 63) % 2 ^ 64 - 2 ^ 63

/-- 64-bit machine addition, as performed by Go on `int`/`int64`. -/
def i64add (a b : Int) : Int := wrap64 (a + b)

theorem wrap64_eq_self {n : Int} (h1 : -(2 ^ 63) ≤ n) (h2 : n < 2 ^ 63) :
    wrap64 n = n := by
  unfold wrap64
  omega

theorem i64add_eq_add {a b : Int} (h1 : -(2 ^ 63) ≤ a + b) (h2 : a + b < 2 ^ 63) :
    i64add a b = a + b := wrap64_eq_self h1 h2

/-- `models.PacketData`: the structured packet record consumed by the
analytics components (src/internal/models/packet_data.go). -/
structure PacketData where
  Timestamp : Int
  SrcIP : String
  DstIP : String
  SrcPort : Int
  DstPort : Int
  Protocol : String
  Length : Int
  Hostname : String
  EthDst : String
deriving DecidableEq

/-- `analysis.DomainEntry` (src/unnamed/part_000). -/
structure DomainEntry where
  Hostname : String
  Timestamp : Int
  Source : String
deriving DecidableEq

/-- `analysis.IPStat` (src/unnamed/part_000). -/
structure IPStat where
  IP : String
  Bytes : Int
deriving DecidableEq

/-- Association-list lookup, modelling a Go string-keyed map read
(`v, ok := m[k]`). -/
def alLookup (m : List (String × Int)) (k : String) : Option Int :=
  match m with
  | [] => none
  | (k1, v) :: r => if k1 = k then some v else alLookup r k

/-- Map read with Go's zero-value default (`m[k]` on a missing key). -/
def alGetD (m : List (String × Int)) (k : String) : Int :=
  (alLookup m k).getD 0

/-- Association-list store `m[k] = v`: replaces the binding if the key is
present, otherwise appends a fresh binding. -/
def alSet (m : List (String × Int)) (k : String) (v : Int) : List (String × Int) :=
  match m with
  | [] => [(k, v)]
  | (k1, v1) :: r => if k1 = k then (k1, v) :: r else (k1, v1) :: alSet r k v

/-- `m[k] += d` on a Go map (missing keys read as 0), with 64-bit wrap. -/
def alInc (m : List (String × Int)) (k : String) (d : Int) : List (String × Int) :=
  match m with
  | [] => [(k, i64add 0 d)]
  | (k1, v1) :: r => if k1 = k then (k1, i64add v1 d) :: r else (k1, v1) :: alInc r k d

/-- Sum of all values stored in an association list. -/
def alSum (m : List (String × Int)) : Int :=
  match m with
  | [] => 0
  | (_, v) :: r => v + alSum r

/-- The bounded-buffer append used for the domain log and the alert
history: `append`, then drop from the front when the capacity `cap` is
exceeded (src/unnamed/part_000 lines 94-99, src/unnamed/part_001
lines 215-222). -/
def pushBounded (cap : Nat) (l : List α) (e : α) : List α :=
  let l2 := l ++ [e]
  if cap < l2.length then l2.drop (l2.length - cap) else l2

/-- `analysis.TrafficStats` (src/unnamed/part_000).  The embedded anomaly
detector is modelled separately (it owns disjoint state and its own lock). -/
structure TrafficStats where
  totalBytes : Int
  windowBytes : Int
  windowPackets : Int
  lastTick : Int
  ipBytes : List (String × Int)
  protocolCounts : List (String × Int)
  domainLog : List DomainEntry
  maxDomainLog : Nat
deriving DecidableEq

/-- `analysis.NewTrafficStats` (src/unnamed/part_000 lines 46-55). -/
def NewTrafficStats (now : Int) : TrafficStats :=
  { totalBytes := 0
    windowBytes := 0
    windowPackets := 0
    lastTick := now
    ipBytes := []
    protocolCounts := []
    domainLog := []
    maxDomainLog := 50 }

/-- `TrafficStats.ProcessPacket` (src/unnamed/part_000 lines 58-106),
restricted to the aggregator's own state; `now` is the instant used for
the domain-entry timestamp. -/
def TrafficStats.ProcessPacket (s : TrafficStats) (pkt : PacketData) (now : Int) :
    TrafficStats :=
  let s1 := { s with
    totalBytes := i64add s.totalBytes pkt.Length
    windowBytes := i64add s.windowBytes pkt.Length
    windowPackets := i64add s.windowPackets 1 }
  let s2 := if pkt.SrcIP ≠ "" then
      { s1 with ipBytes := alInc s1.ipBytes pkt.SrcIP pkt.Length } else s1
  let proto := if pkt.Protocol = "" then "Unknown" else pkt.Protocol
  let s3 := { s2 with protocolCounts := alInc s2.protocolCounts proto 1 }
  if pkt.Hostname ≠ "" then
    let source : String :=
      if pkt.DstPort = 443 ∨ pkt.DstPort = 853 then "SNI"
      else if pkt.DstPort = 53 ∨ pkt.Protocol = "UDP" then "DNS"
      else "HTTP"
    { s3 with domainLog :=
        pushBounded s3.maxDomainLog s3.domainLog (DomainEntry.mk pkt.Hostname now source) }
  else s3

/-- Sequential processing of a stream of (record, arrival instant) pairs. -/
def TrafficStats.processList (s : TrafficStats) (ps : List (PacketData × Int)) :
    TrafficStats :=
  ps.foldl (fun acc p => acc.ProcessPacket p.1 p.2) s

/-- `TrafficStats.GetRates` (src/unnamed/part_000 lines 109-129).
Returns ((bps, pps), updated state). -/
def TrafficStats.GetRates (s : TrafficStats) (now : Int) :
    (ℚ × ℚ) × TrafficStats :=
  let duration : ℚ := ((now - s.lastTick : Int) : ℚ) / 1000000000
  if duration = 0 then ((0, 0), s)
  else
    let bps : ℚ := (s.windowBytes : ℚ) * 8 / duration
    let pps : ℚ := (s.windowPackets : ℚ) / duration
    ((bps, pps), { s with windowBytes := 0, windowPackets := 0, lastTick := now })

/-- Descending insertion by byte count, modelling the `sort.Slice`
comparator `stats[i].Bytes > stats[j].Bytes` of `GetTopTalkers`. -/
def insertDescBytes (x : IPStat) : List IPStat → List IPStat
  | [] => [x]
  | y :: ys => if x.Bytes > y.Bytes then x :: y :: ys else y :: insertDescBytes x ys

/-- Descending sort by byte count (stand-in for Go's unstable sort; the
claims proved here depend only on length and ordering). -/
def sortDescBytes (l : List IPStat) : List IPStat :=
  l.foldr insertDescBytes []

/-- `TrafficStats.GetTopTalkers` (src/unnamed/part_000 lines 139-159).
`none` models the Go runtime panic raised by `stats[:limit]` when
`limit` is negative while `len(stats) > limit`. -/
def TrafficStats.GetTopTalkers (s : TrafficStats) (limit : Int) :
    Option (List IPStat) :=
  let stats := sortDescBytes (s.ipBytes.map fun kv => ⟨kv.1, kv.2⟩)
  if (limit : Int) < stats.length then
    if 0 ≤ limit then some (stats.take limit.toNat) else none
  else some stats

/-- `analysis.AnomalyType` (src/unnamed/part_001). -/
inductive AnomalyType where
  | broadcastStorm
  | unsecureProtocol
  | possibleDoS
deriving DecidableEq

/-- `analysis.Alert` (src/unnamed/part_001). -/
structure Alert where
  type : AnomalyType
  Source : String
  Message : String
  Timestamp : Int
deriving DecidableEq

/-- `analysis.Config` (src/unnamed/part_001); durations in nanoseconds. -/
structure Config where
  BroadcastThreshold : Int
  DoSThreshold : Int
  UnsecureCooldown : Int
  CleanupInterval : Int
  DataRetention : Int
deriving DecidableEq

/-- `analysis.DefaultConfig` (src/unnamed/part_001 lines 29-37):
thresholds 50 and 500, cooldown 10s, cleanup every 1min, retention 5min. -/
def DefaultConfig : Config :=
  { BroadcastThreshold := 50
    DoSThreshold := 500
    UnsecureCooldown := 10 * 10 ^ 9
    CleanupInterval := 60 * 10 ^ 9
    DataRetention := 300 * 10 ^ 9 }

/-- `analysis.AnomalyDetector` (src/unnamed/part_001). -/
structure AnomalyDetector where
  config : Config
  broadcastCount : Int
  broadcastWindow : Int
  unsecureAlerts : List (String × Int)
  ipPacketCount : List (String × Int)
  ipWindow : List (String × Int)
  alerts : List Alert
  maxAlerts : Nat
  lastCleanup : Int
deriving DecidableEq

/-- `analysis.NewAnomalyDetector` (src/unnamed/part_001 lines 72-82).
`broadcastCount`/`broadcastWindow` keep Go's zero values; `lastCleanup`
is the construction instant. -/
def NewAnomalyDetector (cfg : Config) (now : Int) : AnomalyDetector :=
  { config := cfg
    broadcastCount := 0
    broadcastWindow := 0
    unsecureAlerts := []
    ipPacketCount := []
    ipWindow := []
    alerts := []
    maxAlerts := 20
    lastCleanup := now }

/-- `AnomalyDetector.addAlert` (src/unnamed/part_001 lines 215-222). -/
def AnomalyDetector.addAlert (ad : AnomalyDetector) (a : Alert) : AnomalyDetector :=
  { ad with alerts := pushBounded ad.maxAlerts ad.alerts a }

/-- `AnomalyDetector.cleanup` (src/unnamed/part_001 lines 108-123):
drops throttle and window entries idle longer than `DataRetention`;
a DoS packet count is removed exactly when its window entry expires. -/
def AnomalyDetector.cleanup (ad : AnomalyDetector) (now : Int) : AnomalyDetector :=
  let expired : String → Bool := fun ip =>
    match alLookup ad.ipWindow ip with
    | some w => decide (now - w > ad.config.DataRetention)
    | none => false
  { ad with
    unsecureAlerts := ad.unsecureAlerts.filter
      (fun kv => decide (¬(now - kv.2 > ad.config.DataRetention)))
    ipWindow := ad.ipWindow.filter
      (fun kv => decide (¬(now - kv.2 > ad.config.DataRetention)))
    ipPacketCount := ad.ipPacketCount.filter (fun kv => ¬ expired kv.1) }

/-- `AnomalyDetector.detectBroadcastStorm` (src/unnamed/part_001
lines 126-151); also returns the alerts emitted by this call. -/
def AnomalyDetector.detectBroadcastStorm (ad : AnomalyDetector) (pkt : PacketData)
    (now : Int) : AnomalyDetector × List Alert :=
  if pkt.EthDst = "ff:ff:ff:ff:ff:ff" then
    let ad1 := if now - ad.broadcastWindow > 10 ^ 9 then
        { ad with broadcastCount := 0, broadcastWindow := now } else ad
    let ad2 := { ad1 with broadcastCount := i64add ad1.broadcastCount 1 }
    if ad2.broadcastCount > ad2.config.BroadcastThreshold then
      let alert : Alert :=
        { type := .broadcastStorm
          Source := "Network"
          Message := "Broadcast storm detected: " ++ toString ad2.broadcastCount ++
            " broadcasts in 1 second"
          Timestamp := now }
      ({ ad2.addAlert alert with broadcastCount := 0, broadcastWindow := now }, [alert])
    else (ad2, [])
  else (ad, [])

/-- `AnomalyDetector.detectUnsecureProtocol` (src/unnamed/part_001
lines 154-177); also returns the alerts emitted by this call. -/
def AnomalyDetector.detectUnsecureProtocol (ad : AnomalyDetector) (pkt : PacketData)
    (now : Int) : AnomalyDetector × List Alert :=
  let protocolName : Option String :=
    if pkt.DstPort = 80 then some "HTTP"
    else if pkt.DstPort = 21 then some "FTP"
    else if pkt.DstPort = 23 then some "Telnet"
    else none
  match protocolName with
  | none => (ad, [])
  | some pname =>
    let key := pkt.SrcIP ++ ":" ++ toString pkt.DstPort
    let fire : Bool :=
      match alLookup ad.unsecureAlerts key with
      | none => true
      | some lastAlert => decide (now - lastAlert > ad.config.UnsecureCooldown)
    if fire then
      let alert : Alert :=
        { type := .unsecureProtocol
          Source := pkt.SrcIP
          Message := "Plaintext " ++ pname ++ " traffic on port " ++
            toString pkt.DstPort ++ " from " ++ pkt.SrcIP
          Timestamp := now }
      ({ ad.addAlert alert with unsecureAlerts := alSet ad.unsecureAlerts key now },
        [alert])
    else (ad, [])

/-- `AnomalyDetector.detectDoS` (src/unnamed/part_001 lines 180-212);
also returns the alerts emitted by this call. -/
def AnomalyDetector.detectDoS (ad : AnomalyDetector) (pkt : PacketData)
    (now : Int) : AnomalyDetector × List Alert :=
  if pkt.SrcIP = "" then (ad, [])
  else
    let ad1 := if (alLookup ad.ipWindow pkt.SrcIP).isNone then
        { ad with
          ipWindow := alSet ad.ipWindow pkt.SrcIP now
          ipPacketCount := alSet ad.ipPacketCount pkt.SrcIP 0 } else ad
    let ad2 := if now - alGetD ad1.ipWindow pkt.SrcIP > 10 ^ 9 then
        { ad1 with
          ipPacketCount := alSet ad1.ipPacketCount pkt.SrcIP 0
          ipWindow := alSet ad1.ipWindow pkt.SrcIP now } else ad1
    let newCount := i64add (alGetD ad2.ipPacketCount pkt.SrcIP) 1
    let ad3 := { ad2 with ipPacketCount := alSet ad2.ipPacketCount pkt.SrcIP newCount }
    if alGetD ad3.ipPacketCount pkt.SrcIP > ad3.config.DoSThreshold then
      let alert : Alert :=
        { type := .possibleDoS
          Source := pkt.SrcIP
          Message := "High packet rate from " ++ pkt.SrcIP ++ ": " ++
            toString (alGetD ad3.ipPacketCount pkt.SrcIP) ++ " pps"
          Timestamp := now }
      ({ ad3.addAlert alert with
          ipPacketCount := alSet ad3.ipPacketCount pkt.SrcIP 0
          ipWindow := alSet ad3.ipWindow pkt.SrcIP now }, [alert])
    else (ad3, [])

/-- `AnomalyDetector.ProcessPacket` (src/unnamed/part_001 lines 85-105);
also returns the alerts emitted by this call, in emission order. -/
def AnomalyDetector.ProcessPacket (ad : AnomalyDetector) (pkt : PacketData)
    (now : Int) : AnomalyDetector × List Alert :=
  let ad0 := if now - ad.lastCleanup > ad.config.CleanupInterval then
      { ad.cleanup now with lastCleanup := now } else ad
  let r1 := ad0.detectBroadcastStorm pkt now
  let r2 := r1.1.detectUnsecureProtocol pkt now
  let r3 := r2.1.detectDoS pkt now
  (r3.1, r1.2 ++ r2.2 ++ r3.2)

/-- Sequential detector run over a stream of (record, arrival instant)
pairs, collecting every emitted alert in order. -/
def AnomalyDetector.run : AnomalyDetector → List (PacketData × Int) →
    AnomalyDetector × List Alert
  | ad, [] => (ad, [])
  | ad, p :: ps =>
    let r := ad.ProcessPacket p.1 p.2
    let rest := AnomalyDetector.run r.1 ps
    (rest.1, r.2 ++ rest.2)

/-- Number of emitted alerts of a given type. -/
def countType (l : List Alert) (t : AnomalyType) : Nat :=
  (l.filter (fun a => a.type = t)).length

/-- The ARP fields inspected or produced by the resolver and scanner
(gopacket `layers.ARP`): operation code (1 = request, 2 = reply), sender
protocol address (4 bytes) and sender hardware address (6 bytes). -/
structure ArpLayer where
  Operation : Nat
  SourceProtAddress : List Nat
  SourceHwAddress : List Nat
deriving DecidableEq

/-- One turn of the receive loop in `GetMAC`
(src/internal/spoofer/resolver.go lines 93-113): `elapsed` is the value of
`time.Since(start)` (ns) at the loop-top deadline check; `pkt = none`
models the 100ms `time.After` branch firing with no packet available. -/
structure PollEvent where
  elapsed : Int
  pkt : Option ArpLayer
deriving DecidableEq

/-- The reply filter of `GetMAC` (resolver.go lines 104-105): ARP
operation is Reply and the sender protocol address equals the target. -/
def arpReplyMatches (targetIP : List Nat) (a : ArpLayer) : Bool :=
  a.Operation == 2 && a.SourceProtAddress == targetIP

/-- The receive loop of `GetMAC` (resolver.go lines 93-113).  An exhausted
event list means no further packet ever arrives, in which case the real
loop keeps taking the `time.After` branch until the deadline check fails. -/
def pollForReply (targetIP : List Nat) : List PollEvent → Except String (List Nat)
  | [] => .error "timeout waiting for ARP reply"
  | e :: rest =>
    if e.elapsed > 3 * 10 ^ 9 then .error "timeout waiting for ARP reply"
    else
      match e.pkt with
      | some a =>
        if arpReplyMatches targetIP a then .ok a.SourceHwAddress
        else pollForReply targetIP rest
      | none => pollForReply targetIP rest

/-- An Ethernet/ARP frame as crafted by the resolver and the injector:
Ethernet source/destination plus the ARP fields set in the source. -/
structure ArpFrame where
  ethSrc : List Nat
  ethDst : List Nat
  Operation : Nat
  SourceHwAddress : List Nat
  SourceProtAddress : List Nat
  DstHwAddress : List Nat
  DstProtAddress : List Nat
deriving DecidableEq

/-- The all-ones link-layer broadcast address. -/
def broadcastMAC : List Nat := [255, 255, 255, 255, 255, 255]

/-- `spoofer.GetMAC` (src/internal/spoofer/resolver.go lines 16-114).
Environment interactions are explicit inputs: `parsedIP` is the result of
`net.ParseIP(...).To4()` (none = invalid), `ifaceMAC` the interface lookup
(none = `InterfaceByName` failure), `openOk` the pcap open, `addrs` the
interface address list with each entry's IPv4 (none = not an IPv4 IPNet),
`serializeOk`/`writeOk` the serialize and transmit outcomes, and `events`
the receive-loop schedule.  Returns (frames written to the wire, result). -/
def GetMAC (parsedIP : Option (List Nat)) (ifaceMAC : Option (List Nat))
    (openOk : Bool) (addrs : Option (List (Option (List Nat))))
    (serializeOk writeOk : Bool) (events : List PollEvent) :
    List ArpFrame × Except String (List Nat) :=
  match parsedIP with
  | none => ([], .error "invalid IP address")
  | some targetIP =>
    match ifaceMAC with
    | none => ([], .error "failed to get interface")
    | some mac =>
      if !openOk then ([], .error "failed to open handle")
      else
        match addrs with
        | none => ([], .error "failed to get interface addresses")
        | some addrList =>
          match addrList.findSome? id with
          | none => ([], .error "could not determine source IP for interface")
          | some srcIP =>
            let req : ArpFrame :=
              { ethSrc := mac
                ethDst := broadcastMAC
                Operation := 1
                SourceHwAddress := mac
                SourceProtAddress := srcIP
                DstHwAddress := [0, 0, 0, 0, 0, 0]
                DstProtAddress := targetIP }
            if !serializeOk then ([], .error "failed to serialize packet")
            else if !writeOk then ([req], .error "failed to write packet")
            else ([req], pollForReply targetIP events)

/-- `discovery.Host` (referenced from src/unnamed/part_009); the IPv4
address is a 32-bit natural number (big-endian byte comparison on 4-byte
addresses coincides with numeric comparison). -/
structure Host where
  IP : Nat
  MAC : List Nat
deriving DecidableEq

/-- Ascending insertion by IP, modelling the final
`sort.Slice(... bytes.Compare ...)` of `Scan` (part_009 lines 296-298). -/
def insertAscIP (x : Host) : List Host → List Host
  | [] => [x]
  | y :: ys => if x.IP ≤ y.IP then x :: y :: ys else y :: insertAscIP x ys

/-- Ascending sort of hosts by IP. -/
def sortAscIP (l : List Host) : List Host :=
  l.foldr insertAscIP []

/-- First-wins deduplication by IP, modelling the collector goroutine's
`discoveredHosts` map insert (part_009 lines 182-190). -/
def dedupByIP (seen : List Nat) : List Host → List Host
  | [] => []
  | h :: t => if h.IP ∈ seen then dedupByIP seen t
              else h :: dedupByIP (h.IP :: seen) t

/-- 32-bit byte-wise increment `inc` (part_009 lines 303-310). -/
def incIP (ip : Nat) : Nat := (ip + 1) % 2 ^ 32

/-- The probe loop of `Scan` (part_009 lines 230-269), instrumented.
Per iteration, in source order: the `localNet.Contains` loop condition,
the `MaxHosts` cap, the context/ticker select, the network-address
(`first`), broadcast-address and self skips, then the rate-limited probe.
`cancelAtSelect = some k` means the caller's cancellation is observed at
the k-th executed select.  Returns `some (scanned, selects, cancelled)`,
or `none` when `fuel` is exhausted (the Go loop does not terminate). -/
def probeLoop (fuel : Nat) (mask network broadcast localIP : Nat) (maxHosts : Int)
    (sendOk : Nat → Bool) (cancelAtSelect : Option Nat)
    (ip : Nat) (first : Bool) (scanned selects : Nat) :
    Option (Nat × Nat × Bool) :=
  match fuel with
  | 0 => none
  | fuel + 1 =>
    if ¬(ip &&& mask = network) then some (scanned, selects, false)
    else if maxHosts > 0 ∧ maxHosts ≤ (scanned : Int) then some (scanned, selects, false)
    else if cancelAtSelect = some selects then some (scanned, selects, true)
    else
      let go := fun (first : Bool) (scanned : Nat) =>
        probeLoop fuel mask network broadcast localIP maxHosts sendOk cancelAtSelect
          (incIP ip) first scanned (selects + 1)
      if first then go false scanned
      else if ip = broadcast then go false scanned
      else if ip = localIP then go false scanned
      else if sendOk ip then go false (scanned + 1)
      else go false scanned

/-- `discovery.Scan` (part_009 lines 69-301), restricted to the probe loop,
the final idle wait and the result assembly; capture, BPF-filter setup and
the concurrent reply collector are abstracted into `collected`, the host
list the collector has accumulated when the scan finishes.  `cancelIdle`
is whether the cancellation signal is pending at the final idle-wait
select; both of that select's branches fall through identically
(part_009 lines 278-281).  Returns `some (probes sent, result)`;
`.error ()` is the `return nil, ctx.Err()` path (line 239). -/
def Scan (localIP mask : Nat) (maxHosts : Int) (sendOk : Nat → Bool)
    (cancelAtSelect : Option Nat) (cancelIdle : Bool) (collected : List Host) :
    Option (Nat × Except Unit (List Host)) :=
  match probeLoop (2 ^ 32) mask (localIP &&& mask)
      ((localIP &&& mask) ||| (0xFFFFFFFF ^^^ mask)) localIP maxHosts sendOk
      cancelAtSelect (localIP &&& mask) true 0 0 with
  | none => none
  | some (scanned, _, cancelled) =>
    if cancelled then some (scanned, .error ())
    else some (scanned, .ok (sortAscIP (dedupByIP [] collected)))

/-- Observable shutdown actions of `Engine.Stop` / `Engine.cleanup`
(src/internal/spoofer/injector.go). -/
inductive StopEvent where
  | signalStop
  | send (srcMAC : List Nat) (srcIP : Nat) (dstMAC : List Nat) (dstIP : Nat)
  | sleep (ns : Int)
  | closeHandle
deriving DecidableEq

/-- `spoofer.Engine` (injector.go lines 15-26); `handleOpen` models
`e.handle != nil`. -/
structure Engine where
  TargetIP : Nat
  GatewayIP : Nat
  TargetMAC : List Nat
  GatewayMAC : List Nat
  HostMAC : List Nat
  handleOpen : Bool
  isRunning : Bool
deriving DecidableEq

/-- `Engine.cleanup` (injector.go lines 130-138): three restoration
rounds, each sending the true gateway mapping to the target and the true
target mapping to the gateway, then sleeping 100ms.  `sendOk` gives each
transmission's success, but the Go code discards every send error
(`_ = e.sendARP(...)`), so the emitted trace does not depend on it. -/
def Engine.cleanupTrace (e : Engine) (sendOk : Nat → Bool) : List StopEvent :=
  let f1 := StopEvent.send e.GatewayMAC e.GatewayIP e.TargetMAC e.TargetIP
  let f2 := StopEvent.send e.TargetMAC e.TargetIP e.GatewayMAC e.GatewayIP
  let round := fun (n : Nat) =>
    let _ := sendOk (2 * n)
    let _ := sendOk (2 * n + 1)
    [f1, f2, StopEvent.sleep (100 * 10 ^ 6)]
  round 0 ++ round 1 ++ round 2

/-- `Engine.Stop` (injector.go lines 83-97): no-op unless running;
otherwise signal the loop, sleep 100ms, run the restoration rounds, and
close the capture handle (when non-nil) only after they complete. -/
def Engine.StopTrace (e : Engine) (sendOk : Nat → Bool) : List StopEvent :=
  if !e.isRunning then []
  else
    [StopEvent.signalStop, StopEvent.sleep (100 * 10 ^ 6)]
      ++ e.cleanupTrace sendOk
      ++ (if e.handleOpen then [StopEvent.closeHandle] else [])

/-- Whether a shutdown event is a frame transmission. -/
def StopEvent.isSend : StopEvent → Bool
  | .send _ _ _ _ => true
  | _ => false

/-! ### Projection lemmas for `TrafficStats.ProcessPacket` -/

theorem ProcessPacket_totalBytes (s : TrafficStats) (pkt : PacketData) (now : Int) :
    (s.ProcessPacket pkt now).totalBytes = i64add s.totalBytes pkt.Length := by
  unfold TrafficStats.ProcessPacket
  dsimp only
  split <;> split <;> rfl

theorem ProcessPacket_protocolCounts (s : TrafficStats) (pkt : PacketData) (now : Int) :
    (s.ProcessPacket pkt now).protocolCounts =
      alInc s.protocolCounts (if pkt.Protocol = "" then "Unknown" else pkt.Protocol) 1 := by
  unfold TrafficStats.ProcessPacket
  dsimp only
  split <;> split <;> rfl

theorem ProcessPacket_ipBytes (s : TrafficStats) (pkt : PacketData) (now : Int) :
    (s.ProcessPacket pkt now).ipBytes =
      if pkt.SrcIP ≠ "" then alInc s.ipBytes pkt.SrcIP pkt.Length else s.ipBytes := by
  unfold TrafficStats.ProcessPacket
  dsimp only
  split <;> split <;> rfl

theorem ProcessPacket_maxDomainLog (s : TrafficStats) (pkt : PacketData) (now : Int) :
    (s.ProcessPacket pkt now).maxDomainLog = s.maxDomainLog := by
  unfold TrafficStats.ProcessPacket
  dsimp only
  split <;> split <;> rfl

theorem ProcessPacket_domainLog_of_hostname (s : TrafficStats) (pkt : PacketData)
    (now : Int) (h : pkt.Hostname ≠ "") :
    (s.ProcessPacket pkt now).domainLog =
      pushBounded s.maxDomainLog s.domainLog
        (DomainEntry.mk pkt.Hostname now
          (if pkt.DstPort = 443 ∨ pkt.DstPort = 853 then "SNI"
           else if pkt.DstPort = 53 ∨ pkt.Protocol = "UDP" then "DNS"
           else "HTTP")) := by
  unfold TrafficStats.ProcessPacket
  dsimp only
  split <;> (try split) <;> simp_all

/-! ### C1: cumulative byte total -/

/-- The sum of the `Length` fields of a record stream. -/
def sumLengths (ps : List (PacketData × Int)) : Int :=
  (ps.map (fun p => p.1.Length)).sum

theorem sumLengths_nonneg {ps : List (PacketData × Int)}
    (h : ∀ p ∈ ps, 0 ≤ p.1.Length) : 0 ≤ sumLengths ps := by
  induction ps with
  | nil => simp [sumLengths]
  | cons p t ih =>
    have h1 := h p (by simp)
    have h2 := ih (fun q hq => h q (by simp [hq]))
    simp only [sumLengths, List.map_cons, List.sum_cons]
    have : 0 ≤ (t.map (fun p => p.1.Length)).sum := h2
    omega

theorem sumLengths_cons (p : PacketData × Int) (ps : List (PacketData × Int)) :
    sumLengths (p :: ps) = p.1.Length + sumLengths ps := by
  simp [sumLengths]

theorem processList_totalBytes (ps : List (PacketData × Int)) :
    ∀ s : TrafficStats, 0 ≤ s.totalBytes →
    (∀ p ∈ ps, 0 ≤ p.1.Length) →
    s.totalBytes + sumLengths ps < 2 ^ 63 →
    (s.processList ps).totalBytes = s.totalBytes + sumLengths ps := by
  induction ps with
  | nil => intro s _ _ _; simp [TrafficStats.processList, sumLengths]
  | cons p t ih =>
    intro s hs hl hb
    have hp : 0 ≤ p.1.Length := hl p (by simp)
    have ht : ∀ q ∈ t, 0 ≤ q.1.Length := fun q hq => hl q (by simp [hq])
    have htsum : 0 ≤ sumLengths t := sumLengths_nonneg ht
    rw [sumLengths_cons] at hb
    have hstep : (s.ProcessPacket p.1 p.2).totalBytes = s.totalBytes + p.1.Length := by
      rw [ProcessPacket_totalBytes]
      exact i64add_eq_add (by omega) (by omega)
    have := ih (s.ProcessPacket p.1 p.2) (by omega) ht (by omega)
    simp only [TrafficStats.processList, List.foldl_cons] at this ⊢
    rw [this, hstep, sumLengths_cons]
    ring

/-- C1.  For every stream of processed records (with the physically
meaningful bounds: non-negative lengths whose total stays inside the
64-bit range, so no machine overflow occurs), the aggregator's cumulative
byte total after processing equals the sum of the records' `Length`
fields — no double counting, no loss. -/
theorem claim_C1_total_bytes_is_sum (t0 : Int) (ps : List (PacketData × Int))
    (hlen : ∀ p ∈ ps, 0 ≤ p.1.Length) (hbound : sumLengths ps < 2 ^ 63) :
    ((NewTrafficStats t0).processList ps).totalBytes = sumLengths ps := by
  have h := processList_totalBytes ps (NewTrafficStats t0) (by simp [NewTrafficStats])
    hlen (by simp [NewTrafficStats]; omega)
  simpa [NewTrafficStats] using h

/-- Witness for C1 at a concrete three-record stream. -/
theorem claim_C1_total_bytes_is_sum_witness :
    (∀ p ∈ [(({ Timestamp := 0, SrcIP := "a", DstIP := "b", SrcPort := 1, DstPort := 2,
                 Protocol := "TCP", Length := 500, Hostname := "", EthDst := "" } : PacketData), (0 : Int)),
             (({ Timestamp := 1, SrcIP := "a", DstIP := "b", SrcPort := 1, DstPort := 2,
                 Protocol := "UDP", Length := 300, Hostname := "", EthDst := "" } : PacketData), (1 : Int)),
             (({ Timestamp := 2, SrcIP := "c", DstIP := "b", SrcPort := 1, DstPort := 2,
                 Protocol := "", Length := 200, Hostname := "", EthDst := "" } : PacketData), (2 : Int))],
        0 ≤ p.1.Length) ∧
    ((NewTrafficStats 0).processList
      [(({ Timestamp := 0, SrcIP := "a", DstIP := "b", SrcPort := 1, DstPort := 2,
           Protocol := "TCP", Length := 500, Hostname := "", EthDst := "" } : PacketData), (0 : Int)),
       (({ Timestamp := 1, SrcIP := "a", DstIP := "b", SrcPort := 1, DstPort := 2,
           Protocol := "UDP", Length := 300, Hostname := "", EthDst := "" } : PacketData), (1 : Int)),
       (({ Timestamp := 2, SrcIP := "c", DstIP := "b", SrcPort := 1, DstPort := 2,
           Protocol := "", Length := 200, Hostname := "", EthDst := "" } : PacketData), (2 : Int))]).totalBytes =
      sumLengths
        [(({ Timestamp := 0, SrcIP := "a", DstIP := "b", SrcPort := 1, DstPort := 2,
             Protocol := "TCP", Length := 500, Hostname := "", EthDst := "" } : PacketData), (0 : Int)),
         (({ Timestamp := 1, SrcIP := "a", DstIP := "b", SrcPort := 1, DstPort := 2,
             Protocol := "UDP", Length := 300, Hostname := "", EthDst := "" } : PacketData), (1 : Int)),
         (({ Timestamp := 2, SrcIP := "c", DstIP := "b", SrcPort := 1, DstPort := 2,
             Protocol := "", Length := 200, Hostname := "", EthDst := "" } : PacketData), (2 : Int))] :=
  ⟨by decide, claim_C1_total_bytes_is_sum 0 _ (by decide) (by decide)⟩

/-! ### C9: per-protocol counts partition the processed records -/

theorem alSum_nonneg {m : List (String × Int)} (h : ∀ kv ∈ m, 0 ≤ kv.2) :
    0 ≤ alSum m := by
  induction m with
  | nil => simp [alSum]
  | cons kv r ih =>
    have h1 := h kv (by simp)
    have h2 := ih (fun q hq => h q (by simp [hq]))
    simp only [alSum]
    omega

theorem alSum_alInc_one (m : List (String × Int)) (k : String)
    (hnn : ∀ kv ∈ m, 0 ≤ kv.2) (hb : alSum m + 1 < 2 ^ 63) :
    alSum (alInc m k 1) = alSum m + 1 := by
  induction m with
  | nil =>
    simp only [alInc, alSum]
    rw [i64add_eq_add (by omega) (by omega)]
    ring
  | cons kv r ih =>
    have h1 := hnn kv (by simp)
    have h2 : ∀ q ∈ r, 0 ≤ q.2 := fun q hq => hnn q (by simp [hq])
    have h3 : 0 ≤ alSum r := alSum_nonneg h2
    simp only [alInc, alSum] at hb ⊢
    split
    · simp only [alSum]
      rw [i64add_eq_add (by omega) (by omega)]
      ring
    · simp only [alSum]
      rw [ih h2 (by omega)]
      ring

theorem alInc_one_nonneg {m : List (String × Int)} (k : String)
    (hnn : ∀ kv ∈ m, 0 ≤ kv.2) (hb : alSum m + 1 < 2 ^ 63) :
    ∀ kv ∈ alInc m k 1, 0 ≤ kv.2 := by
  induction m with
  | nil =>
    simp only [alInc]
    intro kv hkv
    simp only [List.mem_singleton] at hkv
    subst hkv
    rw [i64add_eq_add (by omega) (by omega)]
    omega
  | cons p r ih =>
    have h1 := hnn p (by simp)
    have h2 : ∀ q ∈ r, 0 ≤ q.2 := fun q hq => hnn q (by simp [hq])
    have h3 : 0 ≤ alSum r := alSum_nonneg h2
    simp only [alSum] at hb
    simp only [alInc]
    split
    · intro kv hkv
      rcases List.mem_cons.mp hkv with h | h
      · subst h
        dsimp only
        rw [i64add_eq_add (by omega) (by omega)]
        omega
      · exact h2 kv h
    · intro kv hkv
      rcases List.mem_cons.mp hkv with h | h
      · subst h; exact h1
      · exact ih h2 (by omega) kv h

theorem alGetD_alInc_one_self (m : List (String × Int)) (k : String)
    (h1 : 0 ≤ alGetD m k) (h2 : alGetD m k + 1 < 2 ^ 63) :
    alGetD (alInc m k 1) k = alGetD m k + 1 := by
  induction m with
  | nil =>
    have h : i64add 0 1 = 1 := by rw [i64add_eq_add (by omega) (by omega)]; norm_num
    simp [alInc, alGetD, alLookup, h]
  | cons p r ih =>
    obtain ⟨k1, v⟩ := p
    by_cases hk : k1 = k
    · subst hk
      simp [alGetD, alLookup] at h1 h2
      have hv : i64add v 1 = v + 1 := i64add_eq_add (by omega) (by omega)
      simp [alInc, alGetD, alLookup, hv]
    · simp only [alGetD, alLookup, alInc, if_neg hk] at h1 h2 ⊢
      exact ih h1 h2

theorem processList_protoSum (ps : List (PacketData × Int)) :
    ∀ s : TrafficStats, (∀ kv ∈ s.protocolCounts, 0 ≤ kv.2) →
    alSum s.protocolCounts + ps.length < 2 ^ 63 →
    alSum (s.processList ps).protocolCounts = alSum s.protocolCounts + ps.length := by
  induction ps with
  | nil => intro s _ _; simp [TrafficStats.processList]
  | cons p t ih =>
    intro s hnn hb
    simp only [List.length_cons] at hb
    have hcast : ((t.length + 1 : Nat) : Int) = (t.length : Int) + 1 := by push_cast; ring
    have hb1 : alSum s.protocolCounts + 1 < 2 ^ 63 := by
      have : (0 : Int) ≤ t.length := Int.ofNat_nonneg _
      omega
    have hstep : alSum (s.ProcessPacket p.1 p.2).protocolCounts =
        alSum s.protocolCounts + 1 := by
      rw [ProcessPacket_protocolCounts]
      exact alSum_alInc_one _ _ hnn hb1
    have hnn1 : ∀ kv ∈ (s.ProcessPacket p.1 p.2).protocolCounts, 0 ≤ kv.2 := by
      rw [ProcessPacket_protocolCounts]
      exact alInc_one_nonneg _ hnn hb1
    have := ih (s.ProcessPacket p.1 p.2) hnn1 (by rw [hstep]; omega)
    simp only [TrafficStats.processList, List.foldl_cons] at this ⊢
    rw [this, hstep]
    simp only [List.length_cons]
    omega

/-- C9.  After every stream of `ProcessPacket` calls on a fresh aggregator
(shorter than 2^63 records, so no machine overflow), the per-protocol
packet counts sum to exactly the number of records processed; and a record
whose protocol field is empty is counted under the key "Unknown"
(incrementing its count by one) rather than being skipped. -/
theorem claim_C9_protocol_counts_partition (t0 : Int) (ps : List (PacketData × Int))
    (hb : (ps.length : Int) < 2 ^ 63) :
    alSum ((NewTrafficStats t0).processList ps).protocolCounts = ps.length ∧
    (∀ (s : TrafficStats) (pkt : PacketData) (now : Int), pkt.Protocol = "" →
      0 ≤ alGetD s.protocolCounts "Unknown" →
      alGetD s.protocolCounts "Unknown" + 1 < 2 ^ 63 →
      alGetD (s.ProcessPacket pkt now).protocolCounts "Unknown" =
        alGetD s.protocolCounts "Unknown" + 1) := by
  constructor
  · have h := processList_protoSum ps (NewTrafficStats t0)
      (by simp [NewTrafficStats]) (by simp [NewTrafficStats, alSum]; omega)
    simpa [NewTrafficStats, alSum] using h
  · intro s pkt now hp h1 h2
    rw [ProcessPacket_protocolCounts, hp, if_pos rfl]
    exact alGetD_alInc_one_self _ _ h1 h2

/-- Witness for C9 at a concrete two-record stream (one record with an
empty protocol field). -/
theorem claim_C9_protocol_counts_partition_witness :
    ((2 : Int) < 2 ^ 63) ∧
    (alSum ((NewTrafficStats 0).processList
        [(({ Timestamp := 0, SrcIP := "a", DstIP := "b", SrcPort := 1, DstPort := 2,
             Protocol := "TCP", Length := 10, Hostname := "", EthDst := "" } : PacketData), (0 : Int)),
         (({ Timestamp := 1, SrcIP := "a", DstIP := "b", SrcPort := 1, DstPort := 2,
             Protocol := "", Length := 20, Hostname := "", EthDst := "" } : PacketData), (1 : Int))]).protocolCounts =
      2) := by
  have h := claim_C9_protocol_counts_partition 0
    [(({ Timestamp := 0, SrcIP := "a", DstIP := "b", SrcPort := 1, DstPort := 2,
         Protocol := "TCP", Length := 10, Hostname := "", EthDst := "" } : PacketData), (0 : Int)),
     (({ Timestamp := 1, SrcIP := "a", DstIP := "b", SrcPort := 1, DstPort := 2,
         Protocol := "", Length := 20, Hostname := "", EthDst := "" } : PacketData), (1 : Int))]
    (by decide)
  exact ⟨by decide, h.1⟩

/-! ### C2: the domain log and the alert history are bounded buffers -/

theorem pushBounded_length_le (cap : Nat) (l : List α) (e : α) (h : l.length ≤ cap) :
    (pushBounded cap l e).length ≤ cap := by
  unfold pushBounded
  dsimp only
  split
  · rw [List.length_drop]
    omega
  · simp only [List.length_append, List.length_singleton] at *
    omega

theorem pushBounded_eq_drop (cap : Nat) (l : List α) (e : α) (h : l.length ≤ cap) :
    pushBounded cap l e = (l ++ [e]).drop ((l ++ [e]).length - cap) := by
  unfold pushBounded
  dsimp only
  split
  · rfl
  · have h0 : (l ++ [e]).length - cap = 0 := by
      simp only [List.length_append, List.length_singleton] at *
      omega
    rw [h0, List.drop_zero]

theorem foldl_pushBounded (cap : Nat) (es : List α) :
    ∀ acc : List α, acc.length ≤ cap →
    es.foldl (pushBounded cap) acc = (acc ++ es).drop ((acc ++ es).length - cap) := by
  induction es with
  | nil =>
    intro acc h
    simp [Nat.sub_eq_zero_of_le h]
  | cons e t ih =>
    intro acc h
    rw [List.foldl_cons, ih _ (pushBounded_length_le cap acc e h),
      pushBounded_eq_drop cap acc e h]
    have hd : (acc ++ [e]).length - cap ≤ (acc ++ [e]).length := Nat.sub_le _ _
    rw [← List.drop_append_of_le_length hd, List.drop_drop]
    have hL : (acc ++ [e]) ++ t = acc ++ e :: t := by
      rw [List.append_assoc, List.singleton_append]
    rw [hL]
    congr 1
    simp
    omega

theorem pushBounded_at_capacity (cap : Nat) (hcap : 0 < cap) (l : List α) (e : α)
    (h : l.length = cap) : pushBounded cap l e = l.tail ++ [e] := by
  unfold pushBounded
  dsimp only
  have hlen : (l ++ [e]).length = cap + 1 := by simp [h]
  rw [if_pos (by omega), hlen]
  have h1 : cap + 1 - cap = 1 := by omega
  rw [h1, List.drop_append_of_le_length (by omega), List.drop_one]

/-- C2.  The domain log and the alert history are bounded FIFO buffers of
capacities 50 and 20: the constructors fix those capacities, an insertion
into a buffer at capacity drops the oldest entry and appends the new one,
and after 51 sequential domain-log insertions starting from empty the log
holds exactly the 50 most recent entries in insertion order, the oldest
original entry (when not re-inserted later) being absent.  (A non-empty
hostname makes `ProcessPacket` perform exactly such an insertion —
`ProcessPacket_domainLog_of_hostname` — and `addAlert` is such an
insertion by definition.) -/
theorem claim_C2_bounded_buffers :
    (∀ (l : List DomainEntry) (e : DomainEntry), l.length = 50 →
        pushBounded 50 l e = l.tail ++ [e]) ∧
    (∀ (l : List Alert) (a : Alert), l.length = 20 →
        pushBounded 20 l a = l.tail ++ [a]) ∧
    (∀ t0 : Int, (NewTrafficStats t0).maxDomainLog = 50) ∧
    (∀ (cfg : Config) (t : Int), (NewAnomalyDetector cfg t).maxAlerts = 20) ∧
    (∀ (ad : AnomalyDetector) (a : Alert),
        (ad.addAlert a).alerts = pushBounded ad.maxAlerts ad.alerts a) ∧
    (∀ es : List DomainEntry, es.length = 51 →
        es.foldl (pushBounded 50) [] = es.tail ∧
        ∀ e0, es.head? = some e0 → e0 ∉ es.tail →
          e0 ∉ es.foldl (pushBounded 50) []) := by
  refine ⟨fun l e h => pushBounded_at_capacity 50 (by omega) l e h,
    fun l a h => pushBounded_at_capacity 20 (by omega) l a h,
    fun _ => rfl, fun _ _ => rfl, fun _ _ => rfl, fun es h => ?_⟩
  have hfold : es.foldl (pushBounded 50) [] = es.tail := by
    rw [foldl_pushBounded 50 es [] (by simp)]
    simp only [List.nil_append]
    rw [h]
    simp [List.drop_one]
  refine ⟨hfold, fun e0 _ hnotin => ?_⟩
  rw [hfold]
  exact hnotin

/-- A 51-entry stream of distinct domain entries, for the C2 witness. -/
def domainEntries51 : List DomainEntry :=
  (List.range 51).map (fun i => { Hostname := "h", Timestamp := (i : Int), Source := "DNS" })

/-- Witness for C2: a buffer at capacity 50 evicts its head on insertion,
and 51 sequential insertions retain exactly the 50 most recent entries,
the oldest being absent. -/
theorem claim_C2_bounded_buffers_witness :
    (pushBounded 50 (List.replicate 50 ({ Hostname := "d", Timestamp := 0, Source := "DNS" } : DomainEntry))
        { Hostname := "e", Timestamp := 1, Source := "SNI" } =
      (List.replicate 50 ({ Hostname := "d", Timestamp := 0, Source := "DNS" } : DomainEntry)).tail ++
        [{ Hostname := "e", Timestamp := 1, Source := "SNI" }]) ∧
    domainEntries51.foldl (pushBounded 50) [] = domainEntries51.tail ∧
    ({ Hostname := "h", Timestamp := 0, Source := "DNS" } : DomainEntry) ∉
      domainEntries51.foldl (pushBounded 50) [] := by
  have h := claim_C2_bounded_buffers
  refine ⟨h.1 _ _ (by decide), (h.2.2.2.2.2 domainEntries51 (by decide)).1,
    (h.2.2.2.2.2 domainEntries51 (by decide)).2 _ (by decide) (by decide)⟩

/-! ### C3: `GetRates` zero-duration guard and window reset -/

/-- C3.  A `GetRates` call with zero elapsed time since the previous call
returns (0,0) and leaves the entire state — in particular the window byte
counter, the window packet counter and the window start instant —
unchanged; a call with positive elapsed time and no new records (both
window counters zero) returns (0,0) and resets the window start instant
to the current time. -/
theorem claim_C3_get_rates_zero_duration (s : TrafficStats) (now : Int) :
    (now = s.lastTick → s.GetRates now = ((0, 0), s)) ∧
    (s.lastTick < now → s.windowBytes = 0 → s.windowPackets = 0 →
      s.GetRates now = ((0, 0),
        { s with windowBytes := 0, windowPackets := 0, lastTick := now })) := by
  constructor
  · intro h
    simp [TrafficStats.GetRates, h]
  · intro hlt hwb hwp
    have hne : ((now - s.lastTick : Int) : ℚ) / 1000000000 ≠ 0 := by
      rw [div_ne_zero_iff]
      constructor
      · rw [Int.cast_ne_zero]
        omega
      · norm_num
    simp [TrafficStats.GetRates, hne, hwb, hwp]
    intro hc
    exfalso
    have hz : ((now - s.lastTick : Int) : ℚ) = 0 := by push_cast; linarith
    rw [Int.cast_eq_zero] at hz
    omega

/-- Witness for C3: a fresh aggregator polled at its creation instant is
unchanged and reports (0,0); polled again two nanoseconds later with no
records it reports (0,0) and only advances the window start. -/
theorem claim_C3_get_rates_zero_duration_witness :
    (NewTrafficStats 5).GetRates 5 = ((0, 0), NewTrafficStats 5) ∧
    (NewTrafficStats 5).GetRates 7 =
      ((0, 0), { NewTrafficStats 5 with windowBytes := 0, windowPackets := 0, lastTick := 7 }) :=
  ⟨(claim_C3_get_rates_zero_duration (NewTrafficStats 5) 5).1 (by decide),
   (claim_C3_get_rates_zero_duration (NewTrafficStats 5) 7).2 (by decide) (by decide) (by decide)⟩

/-! ### C10: `GetTopTalkers` result size, and the negative-limit panic -/

theorem length_insertDescBytes (x : IPStat) (l : List IPStat) :
    (insertDescBytes x l).length = l.length + 1 := by
  induction l with
  | nil => rfl
  | cons y ys ih =>
    unfold insertDescBytes
    split
    · simp
    · simp [ih]

theorem length_sortDescBytes (l : List IPStat) :
    (sortDescBytes l).length = l.length := by
  induction l with
  | nil => rfl
  | cons x xs ih =>
    simp only [sortDescBytes, List.foldr_cons] at ih ⊢
    rw [length_insertDescBytes, ih]
    simp

/-- The keys of an association list. -/
def alKeys (m : List (String × Int)) : List String := m.map Prod.fst

theorem alKeys_alInc_of_mem {k : String} (d : Int) :
    ∀ {m : List (String × Int)}, k ∈ alKeys m → alKeys (alInc m k d) = alKeys m := by
  intro m
  induction m with
  | nil => intro h; simp [alKeys] at h
  | cons p r ih =>
    intro h
    simp only [alKeys, List.map_cons, List.mem_cons] at h
    unfold alInc
    by_cases hk : p.1 = k
    · simp [alKeys, hk]
    · have hr : k ∈ alKeys r := by
        rcases h with h | h
        · exact absurd h.symm hk
        · exact h
      have := ih hr
      simp only [alKeys] at this
      simp [alKeys, hk, this]

theorem alKeys_alInc_of_not_mem {k : String} (d : Int) :
    ∀ {m : List (String × Int)}, k ∉ alKeys m →
      alKeys (alInc m k d) = alKeys m ++ [k] := by
  intro m
  induction m with
  | nil => intro _; simp [alKeys, alInc]
  | cons p r ih =>
    intro h
    simp only [alKeys, List.map_cons, List.mem_cons, not_or] at h
    unfold alInc
    by_cases hk : p.1 = k
    · exact absurd hk.symm h.1
    · have := ih (by simpa [alKeys] using h.2)
      simp only [alKeys] at this
      simp [alKeys, hk, this]

theorem nodup_alKeys_alInc {m : List (String × Int)} {k : String} (d : Int)
    (h : (alKeys m).Nodup) : (alKeys (alInc m k d)).Nodup := by
  by_cases hk : k ∈ alKeys m
  · rw [alKeys_alInc_of_mem d hk]; exact h
  · rw [alKeys_alInc_of_not_mem d hk]
    simp [List.nodup_append, h, hk]

theorem mem_alKeys_alInc {m : List (String × Int)} {k : String} (d : Int) (a : String) :
    a ∈ alKeys (alInc m k d) ↔ a ∈ alKeys m ∨ a = k := by
  by_cases hk : k ∈ alKeys m
  · rw [alKeys_alInc_of_mem d hk]
    constructor
    · exact Or.inl
    · rintro (h | rfl)
      · exact h
      · exact hk
  · rw [alKeys_alInc_of_not_mem d hk]
    simp

/-- The non-empty source IPs of a record stream, in arrival order. -/
def srcList (ps : List (PacketData × Int)) : List String :=
  (ps.map (fun p => p.1.SrcIP)).filter (fun ip => ip ≠ "")

theorem srcList_cons (p : PacketData × Int) (t : List (PacketData × Int)) :
    srcList (p :: t) =
      if p.1.SrcIP = "" then srcList t else p.1.SrcIP :: srcList t := by
  by_cases h : p.1.SrcIP = "" <;> simp [srcList, h]

theorem processList_ipBytes_keys (ps : List (PacketData × Int)) :
    ∀ s : TrafficStats, (alKeys s.ipBytes).Nodup →
    (alKeys (s.processList ps).ipBytes).Nodup ∧
    (∀ a, a ∈ alKeys (s.processList ps).ipBytes ↔
      a ∈ alKeys s.ipBytes ∨ a ∈ srcList ps) := by
  induction ps with
  | nil =>
    intro s h
    exact ⟨h, fun a => by simp [TrafficStats.processList, srcList]⟩
  | cons p t ih =>
    intro s h
    have hkeys : alKeys (s.ProcessPacket p.1 p.2).ipBytes =
        if p.1.SrcIP = "" then alKeys s.ipBytes
        else alKeys (alInc s.ipBytes p.1.SrcIP p.1.Length) := by
      rw [ProcessPacket_ipBytes]
      by_cases hsrc : p.1.SrcIP = "" <;> simp [hsrc]
    by_cases hsrc : p.1.SrcIP = ""
    · rw [if_pos hsrc] at hkeys
      have := ih (s.ProcessPacket p.1 p.2) (by rw [hkeys]; exact h)
      refine ⟨this.1, fun a => ?_⟩
      rw [srcList_cons, if_pos hsrc]
      simp only [TrafficStats.processList, List.foldl_cons] at this ⊢
      rw [this.2 a, hkeys]
    · rw [if_neg hsrc] at hkeys
      have hnd : (alKeys (s.ProcessPacket p.1 p.2).ipBytes).Nodup := by
        rw [hkeys]; exact nodup_alKeys_alInc _ h
      have := ih (s.ProcessPacket p.1 p.2) hnd
      refine ⟨this.1, fun a => ?_⟩
      rw [srcList_cons, if_neg hsrc]
      simp only [TrafficStats.processList, List.foldl_cons] at this ⊢
      rw [this.2 a, hkeys, mem_alKeys_alInc]
      simp only [List.mem_cons]
      tauto

theorem length_eq_of_nodup_of_mem_iff {l1 l2 : List String}
    (h1 : l1.Nodup) (h2 : l2.Nodup) (h : ∀ a, a ∈ l1 ↔ a ∈ l2) :
    l1.length = l2.length := by
  have hperm := List.perm_of_nodup_nodup_toFinset_eq h1 h2 (by
    ext a
    simp only [List.mem_toFinset]
    exact h a)
  exact hperm.length_eq

/-- The number of distinct recorded (non-empty) source IPs of a stream. -/
def distinctSrcCount (ps : List (PacketData × Int)) : Nat :=
  (srcList ps).dedup.length

theorem processList_ipBytes_length (t0 : Int) (ps : List (PacketData × Int)) :
    ((NewTrafficStats t0).processList ps).ipBytes.length = distinctSrcCount ps := by
  have h := processList_ipBytes_keys ps (NewTrafficStats t0)
    (by simp [NewTrafficStats, alKeys])
  have hlen : (alKeys ((NewTrafficStats t0).processList ps).ipBytes).length =
      (srcList ps).dedup.length := by
    refine length_eq_of_nodup_of_mem_iff h.1 (List.nodup_dedup _) fun a => ?_
    rw [List.mem_dedup, h.2 a]
    simp [NewTrafficStats, alKeys]
  simpa [alKeys, distinctSrcCount] using hlen

theorem getTopTalkers_length_of_nonneg (s : TrafficStats) (n : Int) (hn : 0 ≤ n) :
    ∃ l, s.GetTopTalkers n = some l ∧ l.length = min n.toNat s.ipBytes.length := by
  unfold TrafficStats.GetTopTalkers
  dsimp only
  rw [if_pos hn]
  split
  · rename_i hlt
    refine ⟨_, rfl, ?_⟩
    rw [List.length_take, length_sortDescBytes, List.length_map]
  · rename_i hge
    refine ⟨_, rfl, ?_⟩
    rw [length_sortDescBytes, List.length_map]
    rw [length_sortDescBytes, List.length_map] at hge
    omega

theorem getTopTalkers_neg_panic (s : TrafficStats) (n : Int) (hn : n < 0)
    (hne : s.ipBytes ≠ []) : s.GetTopTalkers n = none := by
  unfold TrafficStats.GetTopTalkers
  dsimp only
  have hpos : 0 < (sortDescBytes (s.ipBytes.map fun kv => ⟨kv.1, kv.2⟩)).length := by
    rw [length_sortDescBytes, List.length_map]
    cases hipp : s.ipBytes with
    | nil => exact absurd hipp hne
    | cons q r => simp
  have hc : n < ((sortDescBytes (s.ipBytes.map fun kv => ⟨kv.1, kv.2⟩)).length : Int) := by
    omega
  rw [if_pos hc, if_neg (by omega)]

/-- C10.  For every record stream and every limit `n ≥ 0`,
`GetTopTalkers n` returns exactly `min n (number of distinct recorded
source IPs)` entries; for a negative `n`, as soon as at least one record
with a non-empty source IP has been processed, the slice `stats[:limit]`
is out of bounds and the call panics (modelled as `none`). -/
theorem claim_C10_top_talkers_length (t0 : Int) (ps : List (PacketData × Int)) (n : Int) :
    ((0 : Int) ≤ n → ∃ l, ((NewTrafficStats t0).processList ps).GetTopTalkers n = some l ∧
        l.length = min n.toNat (distinctSrcCount ps)) ∧
    (n < 0 → (∃ p ∈ ps, p.1.SrcIP ≠ "") →
        ((NewTrafficStats t0).processList ps).GetTopTalkers n = none) := by
  have hlen := processList_ipBytes_length t0 ps
  constructor
  · intro hn
    obtain ⟨l, hl, hlength⟩ := getTopTalkers_length_of_nonneg
      ((NewTrafficStats t0).processList ps) n hn
    exact ⟨l, hl, by rw [hlength, hlen]⟩
  · intro hn hex
    refine getTopTalkers_neg_panic _ n hn ?_
    have h := processList_ipBytes_keys ps (NewTrafficStats t0)
      (by simp [NewTrafficStats, alKeys])
    obtain ⟨p, hp, hsrc⟩ := hex
    have hmem : p.1.SrcIP ∈ alKeys ((NewTrafficStats t0).processList ps).ipBytes := by
      rw [h.2]
      right
      simp only [srcList, List.mem_filter, List.mem_map]
      exact ⟨⟨p, hp, rfl⟩, by simpa using hsrc⟩
    intro hnil
    rw [hnil] at hmem
    simp [alKeys] at hmem

/-- A three-record stream from two distinct sources, for the C10 witness. -/
def topTalkerPackets : List (PacketData × Int) :=
  [(({ Timestamp := 0, SrcIP := "10.0.0.1", DstIP := "", SrcPort := 0, DstPort := 0,
       Protocol := "TCP", Length := 500, Hostname := "", EthDst := "" } : PacketData), (0 : Int)),
   (({ Timestamp := 1, SrcIP := "10.0.0.2", DstIP := "", SrcPort := 0, DstPort := 0,
       Protocol := "TCP", Length := 300, Hostname := "", EthDst := "" } : PacketData), (1 : Int)),
   (({ Timestamp := 2, SrcIP := "10.0.0.1", DstIP := "", SrcPort := 0, DstPort := 0,
       Protocol := "TCP", Length := 200, Hostname := "", EthDst := "" } : PacketData), (2 : Int))]

/-- Witness for C10: three records from two distinct sources give
`GetTopTalkers 1` exactly one entry, and `GetTopTalkers (-1)` panics. -/
theorem claim_C10_top_talkers_length_witness :
    (∃ l, ((NewTrafficStats 0).processList topTalkerPackets).GetTopTalkers 1 = some l ∧
      l.length = 1) ∧
    ((NewTrafficStats 0).processList topTalkerPackets).GetTopTalkers (-1) = none := by
  constructor
  · obtain ⟨l, hl, hlength⟩ :=
      (claim_C10_top_talkers_length 0 topTalkerPackets 1).1 (by decide)
    refine ⟨l, hl, ?_⟩
    rw [hlength]
    decide
  · refine (claim_C10_top_talkers_length 0 topTalkerPackets (-1)).2 (by decide)
      ⟨topTalkerPackets.head (by decide), ?_, by decide⟩
    simp [topTalkerPackets]

/-! ### C4: broadcast-storm detection -/

theorem countType_append (l1 l2 : List Alert) (t : AnomalyType) :
    countType (l1 ++ l2) t = countType l1 t + countType l2 t := by
  simp [countType, List.filter_append]

/-- The link-layer broadcast address string checked by
`detectBroadcastStorm`. -/
def broadcastEthDst : String := "ff:ff:ff:ff:ff:ff"

/-- The broadcast-storm rule as a pure automaton step on
(count, window): returns (count', window', number of alerts emitted). -/
def bStep (thr : Int) (isB : Bool) (now c w : Int) : Int × Int × Nat :=
  if isB then
    let c1 := if now - w > 10 ^ 9 then (0 : Int) else c
    let w1 := if now - w > 10 ^ 9 then now else w
    let c2 := i64add c1 1
    if c2 > thr then (0, now, 1) else (c2, w1, 0)
  else (c, w, 0)

/-- The broadcast-storm automaton over a stream of
(is-broadcast, instant) steps. -/
def bRun (thr : Int) : List (Bool × Int) → Int → Int → Int × Int × Nat
  | [], c, w => (c, w, 0)
  | s :: rest, c, w =>
    let r := bStep thr s.1 s.2 c w
    let r2 := bRun thr rest r.1 r.2.1
    (r2.1, r2.2.1, r.2.2 + r2.2.2)

/-- The broadcast-relevant view of a record stream. -/
def stepsOf (ps : List (PacketData × Int)) : List (Bool × Int) :=
  ps.map (fun p => (decide (p.1.EthDst = broadcastEthDst), p.2))

theorem stepsOf_cons (p : PacketData × Int) (t : List (PacketData × Int)) :
    stepsOf (p :: t) = (decide (p.1.EthDst = broadcastEthDst), p.2) :: stepsOf t := by
  simp [stepsOf]

theorem detectBroadcastStorm_proj (ad : AnomalyDetector) (pkt : PacketData) (now : Int) :
    (ad.detectBroadcastStorm pkt now).1.broadcastCount =
      (bStep ad.config.BroadcastThreshold (decide (pkt.EthDst = broadcastEthDst)) now
        ad.broadcastCount ad.broadcastWindow).1 ∧
    (ad.detectBroadcastStorm pkt now).1.broadcastWindow =
      (bStep ad.config.BroadcastThreshold (decide (pkt.EthDst = broadcastEthDst)) now
        ad.broadcastCount ad.broadcastWindow).2.1 ∧
    countType (ad.detectBroadcastStorm pkt now).2 .broadcastStorm =
      (bStep ad.config.BroadcastThreshold (decide (pkt.EthDst = broadcastEthDst)) now
        ad.broadcastCount ad.broadcastWindow).2.2 ∧
    (ad.detectBroadcastStorm pkt now).1.config = ad.config := by
  unfold AnomalyDetector.detectBroadcastStorm bStep broadcastEthDst
  by_cases hb : pkt.EthDst = "ff:ff:ff:ff:ff:ff" <;>
    by_cases hr : now - ad.broadcastWindow > 10 ^ 9 <;>
    simp only [hb, hr, decide_True, decide_False, if_true, if_false, ite_true,
      ite_false] <;>
    (try split) <;>
    simp_all [countType, AnomalyDetector.addAlert]

theorem detectUnsecureProtocol_bcast_fields (ad : AnomalyDetector) (pkt : PacketData)
    (now : Int) :
    (ad.detectUnsecureProtocol pkt now).1.broadcastCount = ad.broadcastCount ∧
    (ad.detectUnsecureProtocol pkt now).1.broadcastWindow = ad.broadcastWindow ∧
    (ad.detectUnsecureProtocol pkt now).1.config = ad.config ∧
    countType (ad.detectUnsecureProtocol pkt now).2 .broadcastStorm = 0 := by
  unfold AnomalyDetector.detectUnsecureProtocol
  split
  all_goals cases halu : alLookup ad.unsecureAlerts (pkt.SrcIP ++ ":" ++ toString pkt.DstPort)
  all_goals simp [halu, countType, AnomalyDetector.addAlert]
  all_goals split_ifs <;> simp [countType, AnomalyDetector.addAlert]

theorem detectDoS_bcast_fields (ad : AnomalyDetector) (pkt : PacketData) (now : Int) :
    (ad.detectDoS pkt now).1.broadcastCount = ad.broadcastCount ∧
    (ad.detectDoS pkt now).1.broadcastWindow = ad.broadcastWindow ∧
    (ad.detectDoS pkt now).1.config = ad.config ∧
    countType (ad.detectDoS pkt now).2 .broadcastStorm = 0 := by
  unfold AnomalyDetector.detectDoS
  simp only [apply_ite Prod.fst, apply_ite Prod.snd,
    apply_ite AnomalyDetector.broadcastCount, apply_ite AnomalyDetector.broadcastWindow,
    apply_ite AnomalyDetector.config,
    apply_ite (fun l => countType l AnomalyType.broadcastStorm)]
  simp [countType, AnomalyDetector.addAlert, ite_self]

theorem ProcessPacket_bcast_proj (ad : AnomalyDetector) (pkt : PacketData) (now : Int) :
    (ad.ProcessPacket pkt now).1.broadcastCount =
      (bStep ad.config.BroadcastThreshold (decide (pkt.EthDst = broadcastEthDst)) now
        ad.broadcastCount ad.broadcastWindow).1 ∧
    (ad.ProcessPacket pkt now).1.broadcastWindow =
      (bStep ad.config.BroadcastThreshold (decide (pkt.EthDst = broadcastEthDst)) now
        ad.broadcastCount ad.broadcastWindow).2.1 ∧
    countType (ad.ProcessPacket pkt now).2 .broadcastStorm =
      (bStep ad.config.BroadcastThreshold (decide (pkt.EthDst = broadcastEthDst)) now
        ad.broadcastCount ad.broadcastWindow).2.2 ∧
    (ad.ProcessPacket pkt now).1.config = ad.config := by
  unfold AnomalyDetector.ProcessPacket
  dsimp only
  set ad0 := if now - ad.lastCleanup > ad.config.CleanupInterval then
      { ad.cleanup now with lastCleanup := now } else ad with had0
  have h0 : ad0.broadcastCount = ad.broadcastCount ∧
      ad0.broadcastWindow = ad.broadcastWindow ∧ ad0.config = ad.config := by
    rw [had0]
    split <;> exact ⟨rfl, rfl, rfl⟩
  obtain ⟨h0c, h0w, h0cfg⟩ := h0
  obtain ⟨h1c, h1w, h1n, h1cfg⟩ := detectBroadcastStorm_proj ad0 pkt now
  obtain ⟨h2c, h2w, h2cfg, h2n⟩ :=
    detectUnsecureProtocol_bcast_fields (ad0.detectBroadcastStorm pkt now).1 pkt now
  obtain ⟨h3c, h3w, h3cfg, h3n⟩ :=
    detectDoS_bcast_fields
      ((ad0.detectBroadcastStorm pkt now).1.detectUnsecureProtocol pkt now).1 pkt now
  rw [countType_append, countType_append, h2n, h3n]
  rw [h0c, h0w, h0cfg] at h1c h1w h1n
  exact ⟨by rw [h3c, h2c, h1c], by rw [h3w, h2w, h1w],
    by rw [h1n]; ring, by rw [h3cfg, h2cfg, h1cfg, h0cfg]⟩

theorem run_bcast_proj (ps : List (PacketData × Int)) :
    ∀ ad : AnomalyDetector,
    (ad.run ps).1.broadcastCount =
      (bRun ad.config.BroadcastThreshold (stepsOf ps)
        ad.broadcastCount ad.broadcastWindow).1 ∧
    (ad.run ps).1.broadcastWindow =
      (bRun ad.config.BroadcastThreshold (stepsOf ps)
        ad.broadcastCount ad.broadcastWindow).2.1 ∧
    countType (ad.run ps).2 .broadcastStorm =
      (bRun ad.config.BroadcastThreshold (stepsOf ps)
        ad.broadcastCount ad.broadcastWindow).2.2 ∧
    (ad.run ps).1.config = ad.config := by
  induction ps with
  | nil => intro ad; exact ⟨rfl, rfl, rfl, rfl⟩
  | cons p t ih =>
    intro ad
    obtain ⟨h1c, h1w, h1n, h1cfg⟩ := ProcessPacket_bcast_proj ad p.1 p.2
    obtain ⟨h2c, h2w, h2n, h2cfg⟩ := ih (ad.ProcessPacket p.1 p.2).1
    rw [h1cfg, h1c, h1w] at h2c h2w h2n
    simp only [AnomalyDetector.run, stepsOf_cons, bRun, countType_append]
    exact ⟨h2c, h2w, by rw [h1n, h2n]; rfl, by rw [h2cfg, h1cfg]⟩

theorem bRun_append (thr : Int) (s1 s2 : List (Bool × Int)) :
    ∀ c w : Int, bRun thr (s1 ++ s2) c w =
      ((bRun thr s2 (bRun thr s1 c w).1 (bRun thr s1 c w).2.1).1,
       (bRun thr s2 (bRun thr s1 c w).1 (bRun thr s1 c w).2.1).2.1,
       (bRun thr s1 c w).2.2 +
         (bRun thr s2 (bRun thr s1 c w).1 (bRun thr s1 c w).2.1).2.2) := by
  induction s1 with
  | nil => intro c w; simp [bRun]
  | cons s t ih =>
    intro c w
    simp only [List.cons_append, bRun, List.append_eq]
    rw [ih]
    dsimp only
    rw [Nat.add_assoc]

theorem bStep_reset (thr now c w : Int) (h : 10 ^ 9 < now - w) (hthr : 0 < thr) :
    bStep thr true now c w = (1, now, 0) := by
  have hadd : i64add 0 1 = 1 := by
    rw [i64add_eq_add (by omega) (by omega)]; norm_num
  simp only [bStep, if_true, ite_true, if_pos h, hadd]
  rw [if_neg (by omega)]

theorem bStep_noreset_noalert (thr now c w : Int) (h : ¬(10 ^ 9 < now - w))
    (h0 : 0 ≤ c) (hc : c + 1 ≤ thr) (hb : thr < 2 ^ 62) :
    bStep thr true now c w = (c + 1, w, 0) := by
  have hadd : i64add c 1 = c + 1 := i64add_eq_add (by omega) (by omega)
  simp only [bStep, if_true, ite_true, if_neg h, hadd]
  rw [if_neg (by omega)]

theorem bStep_noreset_alert (thr now c w : Int) (h : ¬(10 ^ 9 < now - w))
    (h0 : 0 ≤ c) (hc : thr < c + 1) (hb : c < 2 ^ 62) :
    bStep thr true now c w = (0, now, 1) := by
  have hadd : i64add c 1 = c + 1 := i64add_eq_add (by omega) (by omega)
  simp only [bStep, if_true, ite_true, if_neg h, hadd]
  rw [if_pos (by omega)]

theorem bRun_no_alert (steps : List (Bool × Int)) :
    ∀ c w : Int, 0 ≤ c → c + steps.length ≤ 50 →
    (∀ s ∈ steps, s.1 = true ∧ s.2 - w ≤ 10 ^ 9) →
    bRun 50 steps c w = (c + steps.length, w, 0) := by
  induction steps with
  | nil => intro c w _ _ _; simp [bRun]
  | cons s t ih =>
    intro c w hc hlen hall
    obtain ⟨hs1, hs2⟩ := hall s (by simp)
    have hrest : ∀ q ∈ t, q.1 = true ∧ q.2 - w ≤ 10 ^ 9 :=
      fun q hq => hall q (by simp [hq])
    simp only [List.length_cons] at hlen ⊢
    simp only [bRun, hs1]
    rw [bStep_noreset_noalert 50 s.2 c w (by omega) (by omega) (by omega) (by omega)]
    dsimp only
    rw [ih (c + 1) w (by omega) (by omega) hrest]
    dsimp only
    have h1 : c + 1 + (t.length : Int) = c + ((t.length + 1 : Nat) : Int) := by
      push_cast; ring
    rw [h1]

theorem bRun_group (rest : List (Bool × Int)) (t0 c w : Int)
    (hreset : 10 ^ 9 < t0 - w)
    (hall : ∀ s ∈ rest, s.1 = true)
    (htimes : ∀ s ∈ rest, s.2 ≤ t0 + 10 ^ 9)
    (hlen : rest.length + 1 ≤ 50) :
    bRun 50 ((true, t0) :: rest) c w = (1 + (rest.length : Int), t0, 0) := by
  simp only [bRun]
  rw [bStep_reset 50 t0 c w hreset (by omega)]
  dsimp only
  rw [bRun_no_alert rest 1 t0 (by omega) (by omega)
    (fun s hs => ⟨hall s hs, by have := htimes s hs; omega⟩)]
  rfl

theorem bRun_storm (rest : List (Bool × Int)) (t0 c w : Int)
    (hreset : 10 ^ 9 < t0 - w)
    (hall : ∀ s ∈ rest, s.1 = true)
    (htimes : ∀ s ∈ rest, s.2 ≤ t0 + 10 ^ 9)
    (hlen : rest.length = 50) :
    (bRun 50 ((true, t0) :: rest) c w).1 = 0 ∧
    (bRun 50 ((true, t0) :: rest) c w).2.2 = 1 := by
  have hne : rest ≠ [] := by intro h; rw [h] at hlen; simp at hlen
  have hsplit : rest.dropLast ++ [rest.getLast hne] = rest :=
    List.dropLast_append_getLast hne
  have hlast := rest.getLast_mem hne
  have hdllen : rest.dropLast.length = 49 := by
    rw [List.length_dropLast, hlen]
  simp only [bRun]
  rw [bStep_reset 50 t0 c w hreset (by omega)]
  dsimp only
  rw [← hsplit, bRun_append]
  rw [bRun_no_alert rest.dropLast 1 t0 (by omega) (by omega)
    (fun s hs => ⟨hall s (List.dropLast_subset rest hs),
      by have := htimes s (List.dropLast_subset rest hs); omega⟩)]
  dsimp only
  have hl1 := hall _ hlast
  have hl2 := htimes _ hlast
  simp only [bRun, hl1]
  rw [bStep_noreset_alert 50 (rest.getLast hne).2 (1 + (rest.dropLast.length : Int)) t0
    (by omega) (by omega) (by rw [hdllen]; norm_num) (by rw [hdllen]; norm_num)]
  exact ⟨rfl, rfl⟩

/-- C4.  With the default configuration (broadcast threshold 50), any 51
broadcast-destined records arriving within one second of the first —
starting from a fresh detector, whose uninitialised window start lies more
than a second in the past — produce exactly one BROADCAST_STORM alert,
with the broadcast counter reset (to zero) immediately upon alerting;
whereas the same 51 records spread across 3 separate 1-second windows
(more than a second apart, with per-window counts at most 50) produce
zero BROADCAST_STORM alerts. -/
theorem claim_C4_broadcast_storm :
    (∀ (tInit : Int) (p0 : PacketData × Int) (pt : List (PacketData × Int)),
      (p0 :: pt).length = 51 →
      (∀ p ∈ p0 :: pt, p.1.EthDst = broadcastEthDst) →
      10 ^ 9 < p0.2 →
      (∀ p ∈ p0 :: pt, p.2 ≤ p0.2 + 10 ^ 9) →
      countType ((NewAnomalyDetector DefaultConfig tInit).run (p0 :: pt)).2
          .broadcastStorm = 1 ∧
        ((NewAnomalyDetector DefaultConfig tInit).run (p0 :: pt)).1.broadcastCount = 0) ∧
    (∀ (tInit : Int) (q1 q2 q3 : PacketData × Int)
        (r1 r2 r3 : List (PacketData × Int)),
      (q1 :: r1).length + (q2 :: r2).length + (q3 :: r3).length = 51 →
      (q1 :: r1).length ≤ 50 → (q2 :: r2).length ≤ 50 → (q3 :: r3).length ≤ 50 →
      (∀ p ∈ (q1 :: r1) ++ (q2 :: r2) ++ (q3 :: r3), p.1.EthDst = broadcastEthDst) →
      10 ^ 9 < q1.2 → q1.2 + 10 ^ 9 < q2.2 → q2.2 + 10 ^ 9 < q3.2 →
      (∀ p ∈ r1, p.2 ≤ q1.2 + 10 ^ 9) →
      (∀ p ∈ r2, p.2 ≤ q2.2 + 10 ^ 9) →
      (∀ p ∈ r3, p.2 ≤ q3.2 + 10 ^ 9) →
      countType ((NewAnomalyDetector DefaultConfig tInit).run
          ((q1 :: r1) ++ (q2 :: r2) ++ (q3 :: r3))).2 .broadcastStorm = 0) := by
  constructor
  · intro tInit p0 pt hlen hb ht0 htimes
    obtain ⟨hc, _, hn, _⟩ := run_bcast_proj (p0 :: pt) (NewAnomalyDetector DefaultConfig tInit)
    have hcfg : (NewAnomalyDetector DefaultConfig tInit).config.BroadcastThreshold = 50 := rfl
    rw [hcfg] at hc hn
    have hsteps : stepsOf (p0 :: pt) = (true, p0.2) :: stepsOf pt := by
      rw [stepsOf_cons, decide_eq_true (hb p0 (by simp))]
    have hstorm := bRun_storm (stepsOf pt) p0.2 0 0 (by omega)
      (fun s hs => by
        simp only [stepsOf, List.mem_map] at hs
        obtain ⟨p, hp, rfl⟩ := hs
        exact decide_eq_true (hb p (by simp [hp])))
      (fun s hs => by
        simp only [stepsOf, List.mem_map] at hs
        obtain ⟨p, hp, rfl⟩ := hs
        exact htimes p (by simp [hp]))
      (by simp only [stepsOf, List.length_map]; simpa using hlen)
    rw [hc, hn, hsteps]
    exact ⟨hstorm.2, hstorm.1⟩
  · intro tInit q1 q2 q3 r1 r2 r3 hsum h1 h2 h3 hb ht1 ht2 ht3 hr1 hr2 hr3
    obtain ⟨_, _, hn, _⟩ := run_bcast_proj ((q1 :: r1) ++ (q2 :: r2) ++ (q3 :: r3))
      (NewAnomalyDetector DefaultConfig tInit)
    have hcfg : (NewAnomalyDetector DefaultConfig tInit).config.BroadcastThreshold = 50 := rfl
    rw [hcfg] at hn
    rw [show (NewAnomalyDetector DefaultConfig tInit).broadcastCount = 0 from rfl,
      show (NewAnomalyDetector DefaultConfig tInit).broadcastWindow = 0 from rfl] at hn
    have hbtrue : ∀ p ∈ (q1 :: r1) ++ (q2 :: r2) ++ (q3 :: r3),
        decide (p.1.EthDst = broadcastEthDst) = true :=
      fun p hp => decide_eq_true (hb p hp)
    have hsg : ∀ (q : PacketData × Int) (r : List (PacketData × Int)),
        (∀ p ∈ q :: r, decide (p.1.EthDst = broadcastEthDst) = true) →
        stepsOf (q :: r) = (true, q.2) :: stepsOf r := by
      intro q r hq
      rw [stepsOf_cons, hq q (by simp)]
    have hmem1 : ∀ p ∈ q1 :: r1, p ∈ (q1 :: r1) ++ (q2 :: r2) ++ (q3 :: r3) := by
      intro p hp; rcases List.mem_cons.mp hp with h | h <;> simp [h]
    have hmem2 : ∀ p ∈ q2 :: r2, p ∈ (q1 :: r1) ++ (q2 :: r2) ++ (q3 :: r3) := by
      intro p hp; rcases List.mem_cons.mp hp with h | h <;> simp [h]
    have hmem3 : ∀ p ∈ q3 :: r3, p ∈ (q1 :: r1) ++ (q2 :: r2) ++ (q3 :: r3) := by
      intro p hp; rcases List.mem_cons.mp hp with h | h <;> simp [h]
    have hsplitmap : stepsOf ((q1 :: r1) ++ (q2 :: r2) ++ (q3 :: r3)) =
        stepsOf (q1 :: r1) ++ stepsOf (q2 :: r2) ++ stepsOf (q3 :: r3) := by
      simp [stepsOf]
    have hstepsall : stepsOf ((q1 :: r1) ++ (q2 :: r2) ++ (q3 :: r3)) =
        ((true, q1.2) :: stepsOf r1) ++ ((true, q2.2) :: stepsOf r2) ++
          ((true, q3.2) :: stepsOf r3) := by
      rw [hsplitmap,
        hsg q1 r1 (fun p hp => hbtrue p (hmem1 p hp)),
        hsg q2 r2 (fun p hp => hbtrue p (hmem2 p hp)),
        hsg q3 r3 (fun p hp => hbtrue p (hmem3 p hp))]
    have hallsteps : ∀ (q : PacketData × Int) (r : List (PacketData × Int)),
        (∀ p ∈ q :: r, p ∈ (q1 :: r1) ++ (q2 :: r2) ++ (q3 :: r3)) →
        ∀ s ∈ stepsOf r, s.1 = true := by
      intro q r hmem s hs
      simp only [stepsOf, List.mem_map] at hs
      obtain ⟨p, hp, rfl⟩ := hs
      exact hbtrue p (hmem p (by simp [hp]))
    have htimesteps : ∀ (r : List (PacketData × Int)) (t0 : Int),
        (∀ p ∈ r, p.2 ≤ t0 + 10 ^ 9) → ∀ s ∈ stepsOf r, s.2 ≤ t0 + 10 ^ 9 := by
      intro r t0 hr s hs
      simp only [stepsOf, List.mem_map] at hs
      obtain ⟨p, hp, rfl⟩ := hs
      exact hr p hp
    have hlensteps : ∀ r : List (PacketData × Int), (stepsOf r).length = r.length := by
      intro r; simp [stepsOf]
    simp only [List.length_cons] at hsum h1 h2 h3
    have hg1 := bRun_group (stepsOf r1) q1.2 0 0 (by omega)
      (hallsteps q1 r1 hmem1) (htimesteps r1 q1.2 hr1) (by rw [hlensteps]; omega)
    have hg2 := bRun_group (stepsOf r2) q2.2 (1 + (stepsOf r1).length) q1.2
      (by omega) (hallsteps q2 r2 hmem2) (htimesteps r2 q2.2 hr2)
      (by rw [hlensteps]; omega)
    have hg3 := bRun_group (stepsOf r3) q3.2 (1 + (stepsOf r2).length) q2.2
      (by omega) (hallsteps q3 r3 hmem3) (htimesteps r3 q3.2 hr3)
      (by rw [hlensteps]; omega)
    rw [hn, hstepsall, bRun_append, bRun_append, hg1]
    dsimp only
    rw [hg2]
    dsimp only
    rw [hg3]
    rfl

/-- A broadcast-destined record, for the C4 witness. -/
def bcastPacket : PacketData :=
  { Timestamp := 0, SrcIP := "", DstIP := "", SrcPort := 0, DstPort := 0,
    Protocol := "", Length := 60, Hostname := "", EthDst := "ff:ff:ff:ff:ff:ff" }

/-- 50 further broadcast records within the same second, for the C4 witness. -/
def stormTail : List (PacketData × Int) :=
  (List.range 50).map (fun i => (bcastPacket, 2 * 10 ^ 9 + (i : Int) + 1))

/-- A 16-record broadcast tail starting just after `t`, for the C4 witness. -/
def groupTail (t : Int) : List (PacketData × Int) :=
  (List.range 16).map (fun i => (bcastPacket, t + (i : Int) + 1))

/-- Witness for C4: 51 broadcast records within one second yield exactly one
BROADCAST_STORM alert and a reset counter; 17+17+17 records in three
well-separated seconds yield none. -/
theorem claim_C4_broadcast_storm_witness :
    (countType ((NewAnomalyDetector DefaultConfig 0).run
        ((bcastPacket, 2 * 10 ^ 9) :: stormTail)).2 .broadcastStorm = 1 ∧
      ((NewAnomalyDetector DefaultConfig 0).run
        ((bcastPacket, 2 * 10 ^ 9) :: stormTail)).1.broadcastCount = 0) ∧
    countType ((NewAnomalyDetector DefaultConfig 0).run
        (((bcastPacket, 2 * 10 ^ 9) :: groupTail (2 * 10 ^ 9)) ++
         ((bcastPacket, 4 * 10 ^ 9) :: groupTail (4 * 10 ^ 9)) ++
         ((bcastPacket, 6 * 10 ^ 9) :: groupTail (6 * 10 ^ 9)))).2 .broadcastStorm = 0 := by
  constructor
  · exact claim_C4_broadcast_storm.1 0 (bcastPacket, 2 * 10 ^ 9) stormTail
      (by decide) (by decide) (by decide) (by decide)
  · exact claim_C4_broadcast_storm.2 0 (bcastPacket, 2 * 10 ^ 9)
      (bcastPacket, 4 * 10 ^ 9) (bcastPacket, 6 * 10 ^ 9)
      (groupTail (2 * 10 ^ 9)) (groupTail (4 * 10 ^ 9)) (groupTail (6 * 10 ^ 9))
      (by decide) (by decide) (by decide) (by decide) (by decide) (by decide)
      (by decide) (by decide) (by decide) (by decide) (by decide)

/-! ### C5: unsecure-protocol alert throttling -/

/-- Whether `detectUnsecureProtocol` flags a destination port
(the `unsecurePorts` table: 80, 21, 23). -/
def flaggedPort (p : Int) : Prop := p = 80 ∨ p = 21 ∨ p = 23

instance (p : Int) : Decidable (flaggedPort p) := by
  unfold flaggedPort
  infer_instance

/-- The throttle key `"IP:port"` used by `detectUnsecureProtocol`. -/
def uKey (srcIP : String) (dstPort : Int) : String :=
  srcIP ++ ":" ++ toString dstPort

/-- The unsecure-protocol rule as a pure step on the throttle map:
returns (map', number of alerts emitted). -/
def uStep (cooldown : Int) (srcIP : String) (dstPort now : Int)
    (m : List (String × Int)) : List (String × Int) × Nat :=
  if flaggedPort dstPort then
    match alLookup m (uKey srcIP dstPort) with
    | none => (alSet m (uKey srcIP dstPort) now, 1)
    | some lastAlert =>
      if now - lastAlert > cooldown then (alSet m (uKey srcIP dstPort) now, 1)
      else (m, 0)
  else (m, 0)

theorem detectUnsecureProtocol_throttled (ad : AnomalyDetector) (pkt : PacketData)
    (now t : Int) (hflag : flaggedPort pkt.DstPort)
    (hlook : alLookup ad.unsecureAlerts (uKey pkt.SrcIP pkt.DstPort) = some t)
    (hcool : now - t ≤ ad.config.UnsecureCooldown) :
    ad.detectUnsecureProtocol pkt now = (ad, []) := by
  unfold AnomalyDetector.detectUnsecureProtocol
  unfold uKey at hlook
  have hncool : ¬(ad.config.UnsecureCooldown < now - t) := by omega
  rcases hflag with h | h | h <;>
    rw [h] at hlook ⊢ <;>
    simp [hlook, hncool]

theorem detectUnsecureProtocol_fires (ad : AnomalyDetector) (pkt : PacketData)
    (now : Int) (hflag : flaggedPort pkt.DstPort)
    (hfire : alLookup ad.unsecureAlerts (uKey pkt.SrcIP pkt.DstPort) = none ∨
      ∃ t, alLookup ad.unsecureAlerts (uKey pkt.SrcIP pkt.DstPort) = some t ∧
        ad.config.UnsecureCooldown < now - t) :
    countType (ad.detectUnsecureProtocol pkt now).2 .unsecureProtocol = 1 ∧
    (∀ a ∈ (ad.detectUnsecureProtocol pkt now).2,
      a.type = .unsecureProtocol ∧ a.Source = pkt.SrcIP ∧ a.Timestamp = now) ∧
    (ad.detectUnsecureProtocol pkt now).1.unsecureAlerts =
      alSet ad.unsecureAlerts (uKey pkt.SrcIP pkt.DstPort) now := by
  unfold AnomalyDetector.detectUnsecureProtocol
  unfold uKey at hfire ⊢
  rcases hflag with h | h | h <;> rw [h] at hfire ⊢
  all_goals rcases hfire with hl | ⟨t, hl, hc⟩
  all_goals simp_all [countType, AnomalyDetector.addAlert]

theorem detectUnsecureProtocol_unsec_proj (ad : AnomalyDetector) (pkt : PacketData)
    (now : Int) :
    (ad.detectUnsecureProtocol pkt now).1.unsecureAlerts =
      (uStep ad.config.UnsecureCooldown pkt.SrcIP pkt.DstPort now ad.unsecureAlerts).1 ∧
    countType (ad.detectUnsecureProtocol pkt now).2 .unsecureProtocol =
      (uStep ad.config.UnsecureCooldown pkt.SrcIP pkt.DstPort now ad.unsecureAlerts).2 ∧
    (ad.detectUnsecureProtocol pkt now).1.config = ad.config := by
  unfold AnomalyDetector.detectUnsecureProtocol uStep uKey flaggedPort
  by_cases h80 : pkt.DstPort = 80
  · rw [h80]
    cases halu : alLookup ad.unsecureAlerts (pkt.SrcIP ++ ":" ++ toString (80 : Int)) <;>
      simp [halu, countType, AnomalyDetector.addAlert] <;>
      split_ifs <;> simp [countType, AnomalyDetector.addAlert]
  · by_cases h21 : pkt.DstPort = 21
    · rw [h21]
      cases halu : alLookup ad.unsecureAlerts (pkt.SrcIP ++ ":" ++ toString (21 : Int)) <;>
        simp [h80, halu, countType, AnomalyDetector.addAlert] <;>
        split_ifs <;> simp [countType, AnomalyDetector.addAlert]
    · by_cases h23 : pkt.DstPort = 23
      · rw [h23]
        cases halu : alLookup ad.unsecureAlerts (pkt.SrcIP ++ ":" ++ toString (23 : Int)) <;>
          simp [h80, h21, halu, countType, AnomalyDetector.addAlert] <;>
          split_ifs <;> simp [countType, AnomalyDetector.addAlert]
      · simp [h80, h21, h23, countType]

theorem detectBroadcastStorm_unsec_fields (ad : AnomalyDetector) (pkt : PacketData)
    (now : Int) :
    (ad.detectBroadcastStorm pkt now).1.unsecureAlerts = ad.unsecureAlerts ∧
    (ad.detectBroadcastStorm pkt now).1.config = ad.config ∧
    (ad.detectBroadcastStorm pkt now).1.lastCleanup = ad.lastCleanup ∧
    countType (ad.detectBroadcastStorm pkt now).2 .unsecureProtocol = 0 := by
  unfold AnomalyDetector.detectBroadcastStorm
  by_cases hb : pkt.EthDst = "ff:ff:ff:ff:ff:ff" <;>
    by_cases hr : now - ad.broadcastWindow > 10 ^ 9 <;>
    simp only [hb, hr, if_true, if_false, ite_true, ite_false] <;>
    (try dsimp only) <;>
    (try split) <;>
    simp_all [countType, AnomalyDetector.addAlert]

theorem detectDoS_unsec_fields (ad : AnomalyDetector) (pkt : PacketData) (now : Int) :
    (ad.detectDoS pkt now).1.unsecureAlerts = ad.unsecureAlerts ∧
    (ad.detectDoS pkt now).1.config = ad.config ∧
    countType (ad.detectDoS pkt now).2 .unsecureProtocol = 0 := by
  unfold AnomalyDetector.detectDoS
  simp only [apply_ite Prod.fst, apply_ite Prod.snd,
    apply_ite AnomalyDetector.unsecureAlerts, apply_ite AnomalyDetector.config,
    apply_ite (fun l => countType l AnomalyType.unsecureProtocol)]
  simp [countType, AnomalyDetector.addAlert, ite_self]

theorem ProcessPacket_unsec_proj (ad : AnomalyDetector) (pkt : PacketData) (now : Int) :
    (ad.ProcessPacket pkt now).1.unsecureAlerts =
      (uStep ad.config.UnsecureCooldown pkt.SrcIP pkt.DstPort now
        (if now - ad.lastCleanup > ad.config.CleanupInterval then
          ad.unsecureAlerts.filter
            (fun kv => decide (¬(now - kv.2 > ad.config.DataRetention)))
        else ad.unsecureAlerts)).1 ∧
    countType (ad.ProcessPacket pkt now).2 .unsecureProtocol =
      (uStep ad.config.UnsecureCooldown pkt.SrcIP pkt.DstPort now
        (if now - ad.lastCleanup > ad.config.CleanupInterval then
          ad.unsecureAlerts.filter
            (fun kv => decide (¬(now - kv.2 > ad.config.DataRetention)))
        else ad.unsecureAlerts)).2 ∧
    (ad.ProcessPacket pkt now).1.config = ad.config := by
  unfold AnomalyDetector.ProcessPacket
  dsimp only
  set ad0 := if now - ad.lastCleanup > ad.config.CleanupInterval then
      { ad.cleanup now with lastCleanup := now } else ad with had0
  have h0 : ad0.unsecureAlerts =
      (if now - ad.lastCleanup > ad.config.CleanupInterval then
        ad.unsecureAlerts.filter
          (fun kv => decide (¬(now - kv.2 > ad.config.DataRetention)))
      else ad.unsecureAlerts) ∧ ad0.config = ad.config := by
    rw [had0]
    split <;> exact ⟨rfl, rfl⟩
  obtain ⟨h0m, h0cfg⟩ := h0
  obtain ⟨h1m, h1cfg, _, h1n⟩ := detectBroadcastStorm_unsec_fields ad0 pkt now
  obtain ⟨h2m, h2n, h2cfg⟩ :=
    detectUnsecureProtocol_unsec_proj (ad0.detectBroadcastStorm pkt now).1 pkt now
  obtain ⟨h3m, h3cfg, h3n⟩ :=
    detectDoS_unsec_fields
      ((ad0.detectBroadcastStorm pkt now).1.detectUnsecureProtocol pkt now).1 pkt now
  rw [countType_append, countType_append, h1n, h3n]
  rw [h1m, h0m, h1cfg, h0cfg] at h2m h2n
  exact ⟨by rw [h3m, h2m], by rw [h2n]; ring, by rw [h3cfg, h2cfg, h1cfg, h0cfg]⟩

/-- C5.  With the cited `detectUnsecureProtocol` rule: an alert for a
flagged destination port (80, 21 or 23) whose (sourceIP, port) throttle
key was alerted within the cooldown is suppressed entirely (state and
output unchanged); a flagged record whose key is fresh or expired emits
exactly one UNSECURE_PROTOCOL alert attributed to the source IP and
stamps the key with the current instant; and — through the full
detector with the default 10s cooldown — two records from the same
source IP to port 80 five seconds apart produce exactly one
UNSECURE_PROTOCOL alert. -/
theorem claim_C5_unsecure_throttling :
    (∀ (ad : AnomalyDetector) (pkt : PacketData) (now t : Int),
      flaggedPort pkt.DstPort →
      alLookup ad.unsecureAlerts (uKey pkt.SrcIP pkt.DstPort) = some t →
      now - t ≤ ad.config.UnsecureCooldown →
      ad.detectUnsecureProtocol pkt now = (ad, [])) ∧
    (∀ (ad : AnomalyDetector) (pkt : PacketData) (now : Int),
      flaggedPort pkt.DstPort →
      (alLookup ad.unsecureAlerts (uKey pkt.SrcIP pkt.DstPort) = none ∨
        ∃ t, alLookup ad.unsecureAlerts (uKey pkt.SrcIP pkt.DstPort) = some t ∧
          ad.config.UnsecureCooldown < now - t) →
      countType (ad.detectUnsecureProtocol pkt now).2 .unsecureProtocol = 1 ∧
      (∀ a ∈ (ad.detectUnsecureProtocol pkt now).2,
        a.type = .unsecureProtocol ∧ a.Source = pkt.SrcIP ∧ a.Timestamp = now) ∧
      (ad.detectUnsecureProtocol pkt now).1.unsecureAlerts =
        alSet ad.unsecureAlerts (uKey pkt.SrcIP pkt.DstPort) now) ∧
    (∀ (tInit : Int) (p1 p2 : PacketData) (t1 : Int),
      p1.SrcIP = p2.SrcIP → p1.DstPort = 80 → p2.DstPort = 80 →
      countType ((NewAnomalyDetector DefaultConfig tInit).run
        [(p1, t1), (p2, t1 + 5 * 10 ^ 9)]).2 .unsecureProtocol = 1) := by
  refine ⟨detectUnsecureProtocol_throttled, detectUnsecureProtocol_fires,
    fun tInit p1 p2 t1 hsrc hp1 hp2 => ?_⟩
  have hkey : uKey p2.SrcIP p2.DstPort = uKey p1.SrcIP p1.DstPort := by
    rw [hsrc, hp1, hp2]
  set ad0 := NewAnomalyDetector DefaultConfig tInit with had0
  obtain ⟨h1m, h1n, h1cfg⟩ := ProcessPacket_unsec_proj ad0 p1 t1
  have hm0 : (if t1 - ad0.lastCleanup > ad0.config.CleanupInterval then
      ad0.unsecureAlerts.filter
        (fun kv => decide (¬(t1 - kv.2 > ad0.config.DataRetention)))
    else ad0.unsecureAlerts) = [] := by
    rw [had0]
    split <;> rfl
  rw [hm0] at h1m h1n
  have hstep1 : uStep ad0.config.UnsecureCooldown p1.SrcIP p1.DstPort t1 [] =
      ([(uKey p1.SrcIP p1.DstPort, t1)], 1) := by
    unfold uStep
    rw [if_pos (show flaggedPort p1.DstPort from by rw [hp1]; exact Or.inl rfl)]
    simp [alLookup, alSet]
  rw [hstep1] at h1m h1n
  set r1 := ad0.ProcessPacket p1 t1 with hr1
  obtain ⟨h2m, h2n, _⟩ := ProcessPacket_unsec_proj r1.1 p2 (t1 + 5 * 10 ^ 9)
  have hret : r1.1.config.DataRetention = 300 * 10 ^ 9 := by
    rw [h1cfg, had0]; rfl
  have hcool : r1.1.config.UnsecureCooldown = 10 * 10 ^ 9 := by
    rw [h1cfg, had0]; rfl
  have hm1 : (if t1 + 5 * 10 ^ 9 - r1.1.lastCleanup > r1.1.config.CleanupInterval then
      r1.1.unsecureAlerts.filter
        (fun kv => decide (¬(t1 + 5 * 10 ^ 9 - kv.2 > r1.1.config.DataRetention)))
    else r1.1.unsecureAlerts) = [(uKey p1.SrcIP p1.DstPort, t1)] := by
    split
    · rw [h1m, hret]
      have hkeep : decide (¬(t1 + 5 * 10 ^ 9 - t1 > 300 * 10 ^ 9)) = true :=
        decide_eq_true (by omega)
      simp [List.filter, hkeep]
    · exact h1m
  rw [hm1] at h2m h2n
  have hstep2 : uStep r1.1.config.UnsecureCooldown p2.SrcIP p2.DstPort
      (t1 + 5 * 10 ^ 9) [(uKey p1.SrcIP p1.DstPort, t1)] =
      ([(uKey p1.SrcIP p1.DstPort, t1)], 0) := by
    unfold uStep
    rw [if_pos (show flaggedPort p2.DstPort from by rw [hp2]; exact Or.inl rfl), hkey]
    have hlook : alLookup [(uKey p1.SrcIP p1.DstPort, t1)] (uKey p1.SrcIP p1.DstPort) =
        some t1 := by simp [alLookup]
    rw [hlook]
    dsimp only
    have hnc : ¬(t1 + 5 * 10 ^ 9 - t1 > r1.1.config.UnsecureCooldown) := by
      rw [hcool]; omega
    rw [if_neg hnc]
  rw [hstep2] at h2m h2n
  show countType (AnomalyDetector.run ad0 [(p1, t1), (p2, t1 + 5 * 10 ^ 9)]).2
    .unsecureProtocol = 1
  simp only [AnomalyDetector.run, countType_append]
  rw [← hr1, h1n, h2n]
  rfl

/-- A port-80 record from source 10.0.0.1, for the C5 witness. -/
def pkt80 : PacketData :=
  { Timestamp := 0, SrcIP := "10.0.0.1", DstIP := "", SrcPort := 0, DstPort := 80,
    Protocol := "", Length := 60, Hostname := "", EthDst := "" }

/-- Witness for C5: two port-80 records from 10.0.0.1 five seconds apart
produce exactly one UNSECURE_PROTOCOL alert. -/
theorem claim_C5_unsecure_throttling_witness :
    countType ((NewAnomalyDetector DefaultConfig 0).run
      [(pkt80, 100 * 10 ^ 9), (pkt80, 100 * 10 ^ 9 + 5 * 10 ^ 9)]).2
      .unsecureProtocol = 1 :=
  claim_C5_unsecure_throttling.2.2 0 pkt80 pkt80 (100 * 10 ^ 9) rfl rfl rfl

/-! ### C6: single-target ARP resolution (`GetMAC`) -/

theorem pollForReply_first_match (targetIP : List Nat) (pre : List PollEvent) :
    ∀ (e : PollEvent) (post : List PollEvent) (a : ArpLayer),
    (∀ e1 ∈ pre, e1.elapsed ≤ 3 * 10 ^ 9 ∧
      ∀ a1, e1.pkt = some a1 → arpReplyMatches targetIP a1 = false) →
    e.elapsed ≤ 3 * 10 ^ 9 → e.pkt = some a → arpReplyMatches targetIP a = true →
    pollForReply targetIP (pre ++ e :: post) = .ok a.SourceHwAddress := by
  induction pre with
  | nil =>
    intro e post a _ he hpkt hmatch
    simp only [List.nil_append, pollForReply]
    rw [if_neg (by omega), hpkt]
    simp [hmatch]
  | cons e1 rest ih =>
    intro e post a hpre he hpkt hmatch
    obtain ⟨he1, hm1⟩ := hpre e1 (by simp)
    have hrest : ∀ e2 ∈ rest, e2.elapsed ≤ 3 * 10 ^ 9 ∧
        ∀ a1, e2.pkt = some a1 → arpReplyMatches targetIP a1 = false :=
      fun e2 h2 => hpre e2 (by simp [h2])
    simp only [List.cons_append, pollForReply]
    rw [if_neg (by omega)]
    cases hp : e1.pkt with
    | none => exact ih e post a hrest he hpkt hmatch
    | some a1 =>
      dsimp only
      rw [hm1 a1 hp]
      simp only [Bool.false_eq_true, if_false, ite_false]
      exact ih e post a hrest he hpkt hmatch

theorem pollForReply_timeout (targetIP : List Nat) (events : List PollEvent)
    (h : ∀ e ∈ events, e.elapsed ≤ 3 * 10 ^ 9 →
      ∀ a, e.pkt = some a → arpReplyMatches targetIP a = false) :
    pollForReply targetIP events = .error "timeout waiting for ARP reply" := by
  induction events with
  | nil => rfl
  | cons e rest ih =>
    have hrest : ∀ e1 ∈ rest, e1.elapsed ≤ 3 * 10 ^ 9 →
        ∀ a, e1.pkt = some a → arpReplyMatches targetIP a = false :=
      fun e1 h1 => h e1 (by simp [h1])
    simp only [pollForReply]
    by_cases he : e.elapsed > 3 * 10 ^ 9
    · rw [if_pos he]
    · rw [if_neg he]
      cases hp : e.pkt with
      | none => exact ih hrest
      | some a =>
        dsimp only
        rw [h e (by simp) (by omega) a hp]
        simp only [Bool.false_eq_true, if_false, ite_false]
        exact ih hrest

/-- C6.  Under a working setup (valid target IP, resolvable interface,
open capture handle, an interface IPv4 address, successful serialization):
`GetMAC` transmits exactly one frame, and that frame is a broadcast ARP
request (operation 1) for the target IP — regardless of whether the
transmit call reports success and of what is later captured; when the
transmit succeeds, the call returns the sender hardware address of the
first captured ARP reply whose sender protocol address equals the
requested IP, provided it is seen within the 3-second deadline; and when
no such reply is seen within the deadline it fails with the timeout
error. -/
theorem claim_C6_get_mac_resolution :
    (∀ (targetIP mac srcIP : List Nat) (addrList : List (Option (List Nat)))
        (writeOk : Bool) (events : List PollEvent),
      addrList.findSome? id = some srcIP →
      (GetMAC (some targetIP) (some mac) true (some addrList) true writeOk
          events).1 =
        [{ ethSrc := mac, ethDst := broadcastMAC, Operation := 1,
           SourceHwAddress := mac, SourceProtAddress := srcIP,
           DstHwAddress := [0, 0, 0, 0, 0, 0], DstProtAddress := targetIP }]) ∧
    (∀ (targetIP mac srcIP : List Nat) (addrList : List (Option (List Nat)))
        (pre post : List PollEvent) (e : PollEvent) (a : ArpLayer),
      addrList.findSome? id = some srcIP →
      (∀ e1 ∈ pre, e1.elapsed ≤ 3 * 10 ^ 9 ∧
        ∀ a1, e1.pkt = some a1 → arpReplyMatches targetIP a1 = false) →
      e.elapsed ≤ 3 * 10 ^ 9 → e.pkt = some a → arpReplyMatches targetIP a = true →
      (GetMAC (some targetIP) (some mac) true (some addrList) true true
          (pre ++ e :: post)).2 = .ok a.SourceHwAddress) ∧
    (∀ (targetIP mac srcIP : List Nat) (addrList : List (Option (List Nat)))
        (events : List PollEvent),
      addrList.findSome? id = some srcIP →
      (∀ e ∈ events, e.elapsed ≤ 3 * 10 ^ 9 →
        ∀ a, e.pkt = some a → arpReplyMatches targetIP a = false) →
      (GetMAC (some targetIP) (some mac) true (some addrList) true true
          events).2 = .error "timeout waiting for ARP reply") := by
  refine ⟨?_, ?_, ?_⟩
  · intro targetIP mac srcIP addrList writeOk events hfind
    cases writeOk <;> simp [GetMAC, hfind]
  · intro targetIP mac srcIP addrList pre post e a hfind hpre he hpkt hmatch
    simp only [GetMAC, hfind]
    simpa using pollForReply_first_match targetIP pre e post a hpre he hpkt hmatch
  · intro targetIP mac srcIP addrList events hfind hnone
    simp only [GetMAC, hfind]
    simpa using pollForReply_timeout targetIP events hnone

/-- The matching ARP reply for the C6 witness. -/
def matchReply : ArpLayer :=
  { Operation := 2, SourceProtAddress := [192, 168, 0, 7],
    SourceHwAddress := [222, 173, 190, 239, 0, 1] }

/-- A non-matching captured ARP packet for the C6 witness. -/
def otherArp : ArpLayer :=
  { Operation := 1, SourceProtAddress := [192, 168, 0, 7],
    SourceHwAddress := [9, 9, 9, 9, 9, 9] }

/-- Witness for C6: a concrete capture schedule with one idle poll, one
non-matching packet and then the matching reply, all within the deadline;
and a call whose transmit fails still wrote exactly one frame. -/
theorem claim_C6_get_mac_resolution_witness :
    (GetMAC (some [192, 168, 0, 7]) (some [1, 2, 3, 4, 5, 6]) true
        (some [none, some [10, 0, 0, 1]]) true true
        [PollEvent.mk 0 none, PollEvent.mk (10 ^ 8) (some otherArp),
         PollEvent.mk (2 * 10 ^ 8) (some matchReply)]).2 =
      .ok [222, 173, 190, 239, 0, 1] ∧
    (GetMAC (some [192, 168, 0, 7]) (some [1, 2, 3, 4, 5, 6]) true
        (some [none, some [10, 0, 0, 1]]) true false []).1.length = 1 := by
  constructor
  · exact claim_C6_get_mac_resolution.2.1 [192, 168, 0, 7] [1, 2, 3, 4, 5, 6]
      [10, 0, 0, 1] [none, some [10, 0, 0, 1]]
      [PollEvent.mk 0 none, PollEvent.mk (10 ^ 8) (some otherArp)] []
      (PollEvent.mk (2 * 10 ^ 8) (some matchReply)) matchReply
      (by decide) (by decide) (by decide) (by decide) (by decide)
  · rw [claim_C6_get_mac_resolution.1 [192, 168, 0, 7] [1, 2, 3, 4, 5, 6]
      [10, 0, 0, 1] [none, some [10, 0, 0, 1]] false [] (by decide)]
    rfl

/-! ### C7: discovery-scan cancellation behaviour -/

instance {e a : Type} [DecidableEq e] [DecidableEq a] : DecidableEq (Except e a) :=
  fun x y =>
    match x, y with
    | .error x1, .error y1 =>
      if h : x1 = y1 then isTrue (by rw [h])
      else isFalse (by intro hc; cases hc; exact h rfl)
    | .ok x1, .ok y1 =>
      if h : x1 = y1 then isTrue (by rw [h])
      else isFalse (by intro hc; cases hc; exact h rfl)
    | .error _, .ok _ => isFalse (by intro hc; cases hc)
    | .ok _, .error _ => isFalse (by intro hc; cases hc)

/-- The counterexample run for C7: a /29 subnet around 192.168.0.1,
cancellation observed at the fourth probe-loop select, after one probe
was already sent and with one host already collected. -/
theorem claim_C7_scan_cancellation_counterexample :
    Scan 3232235521 4294967288 (-1) (fun _ => true) (some 3) false
        [Host.mk 5 [1, 2, 3, 4, 5, 6]] = some (1, .error ()) ∧
    (1 : Nat) ≠ 0 := by
  constructor
  · decide
  · decide

theorem probeLoop_none_not_cancelled (mask network broadcast localIP : Nat)
    (maxHosts : Int) (sendOk : Nat → Bool) :
    ∀ (fuel : Nat) (ip : Nat) (first : Bool) (scanned selects sc sel : Nat)
      (cnl : Bool),
    probeLoop fuel mask network broadcast localIP maxHosts sendOk none
      ip first scanned selects = some (sc, sel, cnl) → cnl = false := by
  intro fuel
  induction fuel with
  | zero => intro ip first scanned selects sc sel cnl h; simp [probeLoop] at h
  | succ n ih =>
    intro ip first scanned selects sc sel cnl h
    rw [probeLoop] at h
    split at h
    · simp at h; exact h.2.2
    · split at h
      · simp at h; exact h.2.2
      · rw [if_neg (by simp)] at h
        dsimp only at h
        split at h
        · exact ih _ _ _ _ _ _ _ h
        · split at h
          · exact ih _ _ _ _ _ _ _ h
          · split at h
            · exact ih _ _ _ _ _ _ _ h
            · split at h
              · exact ih _ _ _ _ _ _ _ h
              · exact ih _ _ _ _ _ _ _ h

/-- C7 (amended).  Every terminating scan either propagates the
cancellation failure — which happens exactly when the signal is observed
at a probe-rate tick, and then no hosts are returned regardless of how
many probes were already sent — or returns the collected hosts,
deduplicated by IP and sorted ascending.  A scan whose probe loop never
observes cancellation returns the collected hosts even if the signal
fires during the final idle wait, and the idle-wait cancellation has no
effect on the result at all. -/
theorem claim_C7_scan_cancellation_amended :
    (∀ (localIP mask : Nat) (maxHosts : Int) (sendOk : Nat → Bool)
        (cancelIdle : Bool) (collected : List Host) (r : Nat × Except Unit (List Host)),
      Scan localIP mask maxHosts sendOk none cancelIdle collected = some r →
      r.2 = .ok (sortAscIP (dedupByIP [] collected))) ∧
    (∀ (localIP mask : Nat) (maxHosts : Int) (sendOk : Nat → Bool)
        (cancelAt : Option Nat) (cancelIdle : Bool) (collected : List Host)
        (r : Nat × Except Unit (List Host)),
      Scan localIP mask maxHosts sendOk cancelAt cancelIdle collected = some r →
      r.2 = .error () ∨ r.2 = .ok (sortAscIP (dedupByIP [] collected))) ∧
    (∀ (localIP mask : Nat) (maxHosts : Int) (sendOk : Nat → Bool)
        (cancelAt : Option Nat) (collected : List Host),
      Scan localIP mask maxHosts sendOk cancelAt true collected =
        Scan localIP mask maxHosts sendOk cancelAt false collected) := by
  refine ⟨?_, ?_, ?_⟩
  · intro localIP mask maxHosts sendOk cancelIdle collected r h
    unfold Scan at h
    cases hres : probeLoop (2 ^ 32) mask (localIP &&& mask)
        ((localIP &&& mask) ||| (0xFFFFFFFF ^^^ mask)) localIP maxHosts sendOk none
        (localIP &&& mask) true 0 0 with
    | none => rw [hres] at h; simp at h
    | some v =>
      obtain ⟨sc, sel, cnl⟩ := v
      have hcnl : cnl = false := probeLoop_none_not_cancelled mask (localIP &&& mask)
        ((localIP &&& mask) ||| (0xFFFFFFFF ^^^ mask)) localIP maxHosts sendOk
        (2 ^ 32) (localIP &&& mask) true 0 0 sc sel cnl hres
      rw [hres, hcnl] at h
      simp at h
      rw [← h]
  · intro localIP mask maxHosts sendOk cancelAt cancelIdle collected r h
    unfold Scan at h
    cases hres : probeLoop (2 ^ 32) mask (localIP &&& mask)
        ((localIP &&& mask) ||| (0xFFFFFFFF ^^^ mask)) localIP maxHosts sendOk cancelAt
        (localIP &&& mask) true 0 0 with
    | none => rw [hres] at h; simp at h
    | some v =>
      obtain ⟨sc, sel, cnl⟩ := v
      rw [hres] at h
      cases cnl with
      | true => simp at h; left; rw [← h]
      | false => simp at h; right; rw [← h]
  · intro localIP mask maxHosts sendOk cancelAt collected
    rfl

/-- Witness for C7 (amended): the same /29 subnet scanned to completion
with cancellation pending only at the idle wait returns the deduplicated,
sorted host list. -/
theorem claim_C7_scan_cancellation_amended_witness :
    ∃ r : Nat × Except Unit (List Host),
      Scan 3232235521 4294967288 (-1) (fun _ => true) none true
        [Host.mk 5 [1], Host.mk 3 [2], Host.mk 5 [9]] = some r ∧
      r.2 = .ok (sortAscIP (dedupByIP []
        [Host.mk 5 [1], Host.mk 3 [2], Host.mk 5 [9]])) := by
  refine ⟨(5, .ok [Host.mk 3 [2], Host.mk 5 [1]]), by decide, ?_⟩
  exact claim_C7_scan_cancellation_amended.1 3232235521 4294967288 (-1)
    (fun _ => true) true [Host.mk 5 [1], Host.mk 3 [2], Host.mk 5 [9]]
    (5, .ok [Host.mk 3 [2], Host.mk 5 [1]]) (by decide)

/-! ### C8: `Engine.Stop` restoration rounds -/

/-- C8.  Stopping a running engine (with its capture handle open) always
produces the same shutdown trace, whatever the outcome of each
transmission: signal the loop, sleep, then exactly 3 restoration rounds —
each sending the true gateway mapping to the target and the true target
mapping to the gateway, 100ms apart — and close the capture handle only
at the very end, after all 6 frames.  The frames actually sent are
exactly those 6, 3 per direction, in round order. -/
theorem claim_C8_stop_restoration (e : Engine) (sendOk sendOk2 : Nat → Bool)
    (hrun : e.isRunning = true) (hh : e.handleOpen = true) :
    e.StopTrace sendOk =
      [StopEvent.signalStop, StopEvent.sleep (100 * 10 ^ 6),
       StopEvent.send e.GatewayMAC e.GatewayIP e.TargetMAC e.TargetIP,
       StopEvent.send e.TargetMAC e.TargetIP e.GatewayMAC e.GatewayIP,
       StopEvent.sleep (100 * 10 ^ 6),
       StopEvent.send e.GatewayMAC e.GatewayIP e.TargetMAC e.TargetIP,
       StopEvent.send e.TargetMAC e.TargetIP e.GatewayMAC e.GatewayIP,
       StopEvent.sleep (100 * 10 ^ 6),
       StopEvent.send e.GatewayMAC e.GatewayIP e.TargetMAC e.TargetIP,
       StopEvent.send e.TargetMAC e.TargetIP e.GatewayMAC e.GatewayIP,
       StopEvent.sleep (100 * 10 ^ 6),
       StopEvent.closeHandle] ∧
    (e.StopTrace sendOk).filter StopEvent.isSend =
      [StopEvent.send e.GatewayMAC e.GatewayIP e.TargetMAC e.TargetIP,
       StopEvent.send e.TargetMAC e.TargetIP e.GatewayMAC e.GatewayIP,
       StopEvent.send e.GatewayMAC e.GatewayIP e.TargetMAC e.TargetIP,
       StopEvent.send e.TargetMAC e.TargetIP e.GatewayMAC e.GatewayIP,
       StopEvent.send e.GatewayMAC e.GatewayIP e.TargetMAC e.TargetIP,
       StopEvent.send e.TargetMAC e.TargetIP e.GatewayMAC e.GatewayIP] ∧
    ((e.StopTrace sendOk).filter StopEvent.isSend).length = 6 ∧
    (e.StopTrace sendOk).getLast? = some StopEvent.closeHandle ∧
    e.StopTrace sendOk2 = e.StopTrace sendOk := by
  have htrace : ∀ f : Nat → Bool, e.StopTrace f =
      [StopEvent.signalStop, StopEvent.sleep (100 * 10 ^ 6),
       StopEvent.send e.GatewayMAC e.GatewayIP e.TargetMAC e.TargetIP,
       StopEvent.send e.TargetMAC e.TargetIP e.GatewayMAC e.GatewayIP,
       StopEvent.sleep (100 * 10 ^ 6),
       StopEvent.send e.GatewayMAC e.GatewayIP e.TargetMAC e.TargetIP,
       StopEvent.send e.TargetMAC e.TargetIP e.GatewayMAC e.GatewayIP,
       StopEvent.sleep (100 * 10 ^ 6),
       StopEvent.send e.GatewayMAC e.GatewayIP e.TargetMAC e.TargetIP,
       StopEvent.send e.TargetMAC e.TargetIP e.GatewayMAC e.GatewayIP,
       StopEvent.sleep (100 * 10 ^ 6),
       StopEvent.closeHandle] := by
    intro f
    unfold Engine.StopTrace Engine.cleanupTrace
    rw [hrun, hh]
    rfl
  refine ⟨htrace sendOk, ?_, ?_, ?_, (htrace sendOk2).trans (htrace sendOk).symm⟩
  · rw [htrace sendOk]
    rfl
  · rw [htrace sendOk]
    rfl
  · rw [htrace sendOk]
    rfl

/-- Witness for C8 at a concrete engine, with one all-failing and one
all-succeeding transmission pattern. -/
theorem claim_C8_stop_restoration_witness :
    (Engine.mk 3232235521 3232235522 [1, 1, 1, 1, 1, 1] [2, 2, 2, 2, 2, 2]
        [3, 3, 3, 3, 3, 3] true true).StopTrace (fun _ => false) =
      [StopEvent.signalStop, StopEvent.sleep (100 * 10 ^ 6),
       StopEvent.send [2, 2, 2, 2, 2, 2] 3232235522 [1, 1, 1, 1, 1, 1] 3232235521,
       StopEvent.send [1, 1, 1, 1, 1, 1] 3232235521 [2, 2, 2, 2, 2, 2] 3232235522,
       StopEvent.sleep (100 * 10 ^ 6),
       StopEvent.send [2, 2, 2, 2, 2, 2] 3232235522 [1, 1, 1, 1, 1, 1] 3232235521,
       StopEvent.send [1, 1, 1, 1, 1, 1] 3232235521 [2, 2, 2, 2, 2, 2] 3232235522,
       StopEvent.sleep (100 * 10 ^ 6),
       StopEvent.send [2, 2, 2, 2, 2, 2] 3232235522 [1, 1, 1, 1, 1, 1] 3232235521,
       StopEvent.send [1, 1, 1, 1, 1, 1] 3232235521 [2, 2, 2, 2, 2, 2] 3232235522,
       StopEvent.sleep (100 * 10 ^ 6),
       StopEvent.closeHandle] ∧
    (Engine.mk 3232235521 3232235522 [1, 1, 1, 1, 1, 1] [2, 2, 2, 2, 2, 2]
        [3, 3, 3, 3, 3, 3] true true).StopTrace (fun _ => false) =
      (Engine.mk 3232235521 3232235522 [1, 1, 1, 1, 1, 1] [2, 2, 2, 2, 2, 2]
        [3, 3, 3, 3, 3, 3] true true).StopTrace (fun _ => true) := by
  have h := claim_C8_stop_restoration
    (Engine.mk 3232235521 3232235522 [1, 1, 1, 1, 1, 1] [2, 2, 2, 2, 2, 2]
      [3, 3, 3, 3, 3, 3] true true) (fun _ => true) (fun _ => false)
    (by decide) (by decide)
  exact ⟨(h.2.2.2.2).trans h.1, (h.2.2.2.2).trans ((h.2.2.2.2).trans h.1).symm ▸ rfl⟩

end GoNetWatch
